import Mathlib

/- Verification of the InfraBondX ledger core (src/backend/app.py, src/backend/models.py).

   The embedding models the database rows (models.py) as Lean structures and the
   ledger-mutating route handlers of app.py as pure functions from a `LedgerState`
   to `Except ApiError (LedgerState × result)`.  Python integers are `Int`
   (arbitrary precision, signed); `avg_buy_price` (a Python float updated by exact
   integer products and one division) is modelled as `ℚ`.  Python `//` on ints is
   floor division, hence `Int.fdiv`; Python `int(x / y)` (true division then
   truncation toward zero) on integer operands is `Int.tdiv`.  Authentication is
   external (spec §6): each handler takes the authenticated `(user_id, role)` pair
   produced by the identity provider; the 401 path is outside the model.  On every
   error path of the original handlers no mutation has been committed, which the
   `Except` result captures by returning no state. -/

namespace InfraBondX

/-- Row of the `User` table (models.py). -/
structure User where
  id : Nat
  name : String
  email : String
  password_hash : String
  role : String
  deriving Repr, DecidableEq

/-- Row of the `Project` table (models.py). -/
structure Project where
  id : Nat
  issuer_id : Nat
  title : String
  category : String
  location : String
  description : String
  funding_target : Int
  funding_raised : Int
  token_price : Int
  roi_percent : ℚ
  tenure_months : Int
  risk_level : String
  risk_score : Int
  status : String
  deriving Repr, DecidableEq

/-- Row of the `Milestone` table (models.py). -/
structure Milestone where
  id : Nat
  project_id : Nat
  title : String
  escrow_release_percent : Int
  status : String
  proof_url : String
  deriving Repr, DecidableEq

/-- Row of the `Escrow` table (models.py); one-to-one with `Project`. -/
structure Escrow where
  project_id : Nat
  total_locked : Int
  total_released : Int
  deriving Repr, DecidableEq

/-- Row of the `TokenHolding` table (models.py). -/
structure TokenHolding where
  user_id : Nat
  project_id : Nat
  token_count : Int
  avg_buy_price : ℚ
  deriving Repr, DecidableEq

/-- Row of the `Transaction` table (models.py). -/
structure Transaction where
  tx_hash : String
  user_id : Nat
  project_id : Nat
  tx_type : String
  amount : Int
  token_count : Int
  status : String
  deriving Repr, DecidableEq

/-- Row of the `MarketplaceListing` table (models.py). -/
structure MarketplaceListing where
  id : Nat
  seller_id : Nat
  project_id : Nat
  token_count : Int
  price_per_token : Int
  status : String
  deriving Repr, DecidableEq

/-- The whole mutable store of the backend: every table of models.py. -/
structure LedgerState where
  users : List User
  projects : List Project
  milestones : List Milestone
  escrows : List Escrow
  holdings : List TokenHolding
  transactions : List Transaction
  listings : List MarketplaceListing
  deriving Repr, DecidableEq

/-- Replace the first element satisfying `p` by its image under `f`
    (the SQLAlchemy pattern `query.filter_by(...).first()` followed by a
    mutation of the returned row). -/
def updateFirst {α : Type} (p : α → Bool) (f : α → α) : List α → List α
  | [] => []
  | x :: xs => if p x then f x :: xs else x :: updateFirst p f xs

/-- Fetch-or-create pattern: if some element satisfies `p`, mutate the first
    such element with `f`; otherwise insert a fresh default row `d` and mutate
    it with the same code path (`if not row: row = Default(); session.add(row)`
    followed by the shared mutation). -/
def upsertBy {α : Type} (p : α → Bool) (d : α) (f : α → α) (xs : List α) : List α :=
  if xs.any p then updateFirst p f xs else xs ++ [f d]

/-- Fresh autoincrement primary key: one more than every existing id. -/
def nextId (ids : List Nat) : Nat :=
  ids.foldr (fun i m => max (i + 1) m) 1

-- `query.get(...)` / `query.filter_by(...).first()` lookups.

/-- Lookup `User.query.get(uid)`. -/
def findUser (s : LedgerState) (uid : Nat) : Option User :=
  s.users.find? (fun u => u.id == uid)

/-- Lookup `Project.query.get(pid)`. -/
def findProject (s : LedgerState) (pid : Nat) : Option Project :=
  s.projects.find? (fun p => p.id == pid)

/-- Lookup `Milestone.query.get(mid)`. -/
def findMilestone (s : LedgerState) (mid : Nat) : Option Milestone :=
  s.milestones.find? (fun m => m.id == mid)

/-- Lookup `Escrow.query.filter_by(project_id=pid).first()`. -/
def findEscrow (s : LedgerState) (pid : Nat) : Option Escrow :=
  s.escrows.find? (fun e => e.project_id == pid)

/-- Lookup `TokenHolding.query.filter_by(user_id=uid, project_id=pid).first()`. -/
def findHolding (s : LedgerState) (uid pid : Nat) : Option TokenHolding :=
  s.holdings.find? (fun h => h.user_id == uid && h.project_id == pid)

/-- Lookup `MarketplaceListing.query.get(lid)`. -/
def findListing (s : LedgerState) (lid : Nat) : Option MarketplaceListing :=
  s.listings.find? (fun l => l.id == lid)

/-- Escrow locked total of a project, `0` when the escrow row is absent
    (the transparency endpoint's convention). -/
def escrowLocked (s : LedgerState) (pid : Nat) : Int :=
  ((findEscrow s pid).map Escrow.total_locked).getD 0

/-- Escrow released total of a project, `0` when the escrow row is absent. -/
def escrowReleased (s : LedgerState) (pid : Nat) : Int :=
  ((findEscrow s pid).map Escrow.total_released).getD 0

/-- Token balance of a (user, project) holding, `0` when the row is absent. -/
def holdingCount (s : LedgerState) (uid pid : Nat) : Int :=
  ((findHolding s uid pid).map TokenHolding.token_count).getD 0

/-- Average buy price of a (user, project) holding, `0` when the row is absent. -/
def holdingAvg (s : LedgerState) (uid pid : Nat) : ℚ :=
  ((findHolding s uid pid).map TokenHolding.avg_buy_price).getD 0

/-- Error result of a handler: HTTP status code and message. -/
structure ApiError where
  code : Nat
  msg : String
  deriving Repr, DecidableEq

-- Generic lemmas about the list helpers.

theorem find?_updateFirst_self {α : Type} (p : α → Bool) (f : α → α) (xs : List α)
    (hf : ∀ x, p x = true → p (f x) = true) :
    (updateFirst p f xs).find? p = (xs.find? p).map f := by
  induction xs with
  | nil => rfl
  | cons x xs ih =>
    cases hp : p x with
    | true => simp [updateFirst, hp, List.find?_cons, hf x hp]
    | false => simp [updateFirst, hp, List.find?_cons, ih]

theorem find?_updateFirst_of_ne {α : Type} (p r : α → Bool) (f : α → α) (xs : List α)
    (h1 : ∀ x, p x = true → r x = false) (h2 : ∀ x, p x = true → r (f x) = false) :
    (updateFirst p f xs).find? r = xs.find? r := by
  induction xs with
  | nil => rfl
  | cons x xs ih =>
    cases hp : p x with
    | true => simp [updateFirst, hp, List.find?_cons, h1 x hp, h2 x hp]
    | false => simp [updateFirst, hp, List.find?_cons, ih]

theorem any_eq_isSome_find? {α : Type} (p : α → Bool) (xs : List α) :
    xs.any p = (xs.find? p).isSome := by
  induction xs with
  | nil => rfl
  | cons x xs ih => cases hp : p x <;> simp [List.any_cons, hp, List.find?_cons, ih]

theorem find?_append_some {α : Type} (p : α → Bool) (xs ys : List α) (x : α)
    (h : xs.find? p = some x) : (xs ++ ys).find? p = some x := by
  rw [List.find?_append, h]; rfl

theorem find?_append_none {α : Type} (p : α → Bool) (xs ys : List α)
    (h : xs.find? p = none) : (xs ++ ys).find? p = ys.find? p := by
  rw [List.find?_append, h]; rfl

theorem find?_upsertBy_self {α : Type} (p : α → Bool) (d : α) (f : α → α) (xs : List α)
    (hf : ∀ x, p x = true → p (f x) = true) (hd : p (f d) = true) :
    (upsertBy p d f xs).find? p = some (f ((xs.find? p).getD d)) := by
  unfold upsertBy
  cases hfind : xs.find? p with
  | some x =>
    have hany : xs.any p = true := by rw [any_eq_isSome_find?, hfind]; rfl
    rw [if_pos hany, find?_updateFirst_self p f xs hf, hfind]; rfl
  | none =>
    have hany : xs.any p = false := by rw [any_eq_isSome_find?, hfind]; rfl
    rw [if_neg (by simp [hany]), find?_append_none p xs _ hfind]
    simp [List.find?_cons, hd]

theorem find?_upsertBy_of_ne {α : Type} (p r : α → Bool) (d : α) (f : α → α) (xs : List α)
    (h1 : ∀ x, p x = true → r x = false) (h2 : ∀ x, p x = true → r (f x) = false)
    (hd : r (f d) = false) :
    (upsertBy p d f xs).find? r = xs.find? r := by
  unfold upsertBy
  split
  · exact find?_updateFirst_of_ne p r f xs h1 h2
  · cases hfind : xs.find? r with
    | some x => exact find?_append_some r xs _ x hfind
    | none => rw [find?_append_none r xs _ hfind]; simp [List.find?_cons, hd]

theorem mem_updateFirst {α : Type} (p : α → Bool) (f : α → α) (xs : List α) (y : α)
    (hy : y ∈ updateFirst p f xs) :
    y ∈ xs ∨ ∃ x, xs.find? p = some x ∧ y = f x := by
  induction xs with
  | nil => simp [updateFirst] at hy
  | cons x xs ih =>
    cases hp : p x with
    | true =>
      rw [updateFirst, if_pos hp] at hy
      rcases List.mem_cons.mp hy with h | h
      · exact Or.inr ⟨x, by simp [List.find?_cons, hp], h⟩
      · exact Or.inl (List.mem_cons_of_mem x h)
    | false =>
      rw [updateFirst, if_neg (by simp [hp])] at hy
      rcases List.mem_cons.mp hy with h | h
      · exact Or.inl (h ▸ List.mem_cons_self x xs)
      · rcases ih h with h' | ⟨z, hz, hyz⟩
        · exact Or.inl (List.mem_cons_of_mem x h')
        · exact Or.inr ⟨z, by simp [List.find?_cons, hp, hz], hyz⟩

theorem mem_upsertBy {α : Type} (p : α → Bool) (d : α) (f : α → α) (xs : List α) (y : α)
    (hy : y ∈ upsertBy p d f xs) :
    y ∈ xs ∨ (∃ x, xs.find? p = some x ∧ y = f x) ∨ y = f d := by
  unfold upsertBy at hy
  split at hy
  · rcases mem_updateFirst p f xs y hy with h | h
    · exact Or.inl h
    · exact Or.inr (Or.inl h)
  · rcases List.mem_append.mp hy with h | h
    · exact Or.inl h
    · exact Or.inr (Or.inr (List.mem_singleton.mp h))

theorem nextId_gt (ids : List Nat) (i : Nat) (hi : i ∈ ids) : i < nextId ids := by
  induction ids with
  | nil => simp at hi
  | cons j ids ih =>
    rcases List.mem_cons.mp hi with h | h
    · subst h
      exact lt_of_lt_of_le (Nat.lt_succ_self i) (le_max_left _ _)
    · exact lt_of_lt_of_le (ih h) (le_max_right _ _)

-- ---------- INVEST (app.py, `invest`, POST /api/investor/invest) ----------

/-- Success payload of `invest`: `{"tx_hash": ..., "tokens_issued": ...}`. -/
structure InvestOk where
  tx_hash : String
  tokens_issued : Int
  deriving Repr, DecidableEq

/-- Success-branch state update of `invest` (app.py lines 238-282): increment
    `funding_raised`, lock the amount in escrow (fetch-or-create), update or
    create the investor's holding with the weighted-average cost basis, append
    a MINT transaction. -/
def investApply (s : LedgerState) (user_id : Nat) (p : Project)
    (amount : Int) (tokens : Int) (tx_hash : String) : LedgerState :=
  { s with
    projects := updateFirst (fun q => q.id == p.id)
      (fun q => { q with funding_raised := q.funding_raised + amount }) s.projects,
    escrows := upsertBy (fun e => e.project_id == p.id)
      ⟨p.id, 0, 0⟩
      (fun e => { e with total_locked := e.total_locked + amount }) s.escrows,
    holdings := upsertBy (fun h => h.user_id == user_id && h.project_id == p.id)
      ⟨user_id, p.id, 0, 0⟩
      (fun h =>
        let old_total : ℚ := (h.token_count : ℚ) * h.avg_buy_price
        let new_total : ℚ := old_total + ((tokens * p.token_price : Int) : ℚ)
        { h with token_count := h.token_count + tokens,
                 avg_buy_price := new_total / ((h.token_count + tokens : Int) : ℚ) })
      s.holdings,
    transactions := s.transactions ++
      [⟨tx_hash, user_id, p.id, "MINT", amount, tokens, "SUCCESS"⟩] }

/-- `invest` handler (app.py lines 217-288).  `tx_hash` abstracts the opaque-id
    generator.  The 401 unauthenticated path is outside the model; `user_id` and
    `role` are the identity provider's output. -/
def invest (s : LedgerState) (user_id : Nat) (role : String)
    (project_id : Nat) (amount : Int) (tx_hash : String) :
    Except ApiError (LedgerState × InvestOk) :=
  if role ≠ "INVESTOR" then .error ⟨403, "Forbidden"⟩ else
  match findProject s project_id with
  | none => .error ⟨404, "Not found"⟩
  | some p =>
    if p.status ≠ "ACTIVE" then
      .error ⟨400, "Project is not available for investment"⟩
    else
      let tokens : Int := Int.fdiv amount p.token_price
      if tokens ≤ 0 then .error ⟨400, "Amount too low"⟩
      else .ok (investApply s user_id p amount tokens tx_hash, ⟨tx_hash, tokens⟩)

-- ---------- CREATE LISTING (app.py, `list_tokens_for_sale`) ----------

/-- `list_tokens_for_sale` handler (app.py lines 349-381, POST /api/marketplace/list).
    Note: no check on the referenced project at all, and no role check beyond
    authentication; the seller's balance is checked but NOT decremented. -/
def list_tokens_for_sale (s : LedgerState) (user_id : Nat)
    (project_id : Nat) (token_count price_per_token : Int) :
    Except ApiError (LedgerState × Nat) :=
  if token_count ≤ 0 ∨ price_per_token ≤ 0 then
    .error ⟨400, "Invalid listing inputs"⟩
  else
    match findHolding s user_id project_id with
    | none => .error ⟨400, "Not enough tokens"⟩
    | some h =>
      if h.token_count < token_count then .error ⟨400, "Not enough tokens"⟩
      else
        let lid := nextId (s.listings.map MarketplaceListing.id)
        .ok ({ s with listings := s.listings ++
                [⟨lid, user_id, project_id, token_count, price_per_token, "ACTIVE"⟩] },
             lid)

-- ---------- BUY LISTING (app.py, `buy_listing`, POST /api/marketplace/buy) ----------

/-- Success-branch state update of `buy_listing` (app.py lines 435-472):
    decrement the seller's holding, increment or create the buyer's holding
    OVERWRITING its `avg_buy_price` with the listing price, mark the listing
    SOLD, append a TRANSFER transaction. -/
def buyApply (s : LedgerState) (buyer_id : Nat) (listing : MarketplaceListing)
    (tx_hash : String) : LedgerState :=
  let holdings1 := updateFirst
    (fun h => h.user_id == listing.seller_id && h.project_id == listing.project_id)
    (fun h => { h with token_count := h.token_count - listing.token_count })
    s.holdings
  let holdings2 := upsertBy
    (fun h => h.user_id == buyer_id && h.project_id == listing.project_id)
    ⟨buyer_id, listing.project_id, 0, (listing.price_per_token : ℚ)⟩
    (fun h => { h with token_count := h.token_count + listing.token_count,
                       avg_buy_price := (listing.price_per_token : ℚ) })
    holdings1
  { s with
    holdings := holdings2,
    listings := updateFirst (fun l => l.id == listing.id)
      (fun l => { l with status := "SOLD" }) s.listings,
    transactions := s.transactions ++
      [⟨tx_hash, buyer_id, listing.project_id, "TRANSFER",
        listing.token_count * listing.price_per_token, listing.token_count, "SUCCESS"⟩] }

/-- `buy_listing` handler (app.py lines 411-474). -/
def buy_listing (s : LedgerState) (buyer_id : Nat) (listing_id : Nat)
    (tx_hash : String) : Except ApiError (LedgerState × String) :=
  match findListing s listing_id with
  | none => .error ⟨404, "Not found"⟩
  | some listing =>
    if listing.status ≠ "ACTIVE" then .error ⟨400, "Listing not available"⟩ else
    if buyer_id = listing.seller_id then .error ⟨400, "Cannot buy your own listing"⟩ else
    match findProject s listing.project_id with
    | none => .error ⟨404, "Project not found"⟩
    | some p =>
      if p.status ≠ "ACTIVE" then .error ⟨400, "Project not active"⟩ else
      match findHolding s listing.seller_id listing.project_id with
      | none => .error ⟨400, "Seller has insufficient tokens"⟩
      | some seller_h =>
        if seller_h.token_count < listing.token_count then
          .error ⟨400, "Seller has insufficient tokens"⟩
        else
          .ok (buyApply s buyer_id listing tx_hash, tx_hash)

-- ---------- MILESTONE PROOF (app.py, `issuer_submit_milestone_proof`) ----------

/-- Result of a milestone proof submission: either the idempotent
    "Already completed" success, or the released escrow amount. -/
inductive MilestoneResult where
  | alreadyCompleted
  | released : Int → MilestoneResult
  deriving Repr, DecidableEq

/-- Escrow release for one milestone completion (app.py lines 684-689):
    `release_amount = int((total_locked * percent) / 100)` — Python true division
    then `int` truncation toward zero, i.e. `Int.tdiv` — clamped to not exceed
    `total_locked`; the amount moves from locked to released. -/
def escrowRelease (e : Escrow) (percent : Int) : Escrow × Int :=
  let r0 := Int.tdiv (e.total_locked * percent) 100
  let r := if r0 > e.total_locked then e.total_locked else r0
  ({ e with total_locked := e.total_locked - r, total_released := e.total_released + r }, r)

/-- Success-branch (PENDING milestone) state update of
    `issuer_submit_milestone_proof`: mark the milestone COMPLETED with its proof,
    then release the configured percent of the CURRENT locked total from the
    project's escrow (fetch-or-create). -/
def submitProofApply (s : LedgerState) (m : Milestone) (proof_url : String) :
    LedgerState × Int :=
  let e0 := (findEscrow s m.project_id).getD ⟨m.project_id, 0, 0⟩
  let er := escrowRelease e0 m.escrow_release_percent
  let escrows1 :=
    if (findEscrow s m.project_id).isSome then
      updateFirst (fun e => e.project_id == m.project_id) (fun _ => er.1) s.escrows
    else s.escrows ++ [er.1]
  ({ s with
      milestones := updateFirst (fun x => x.id == m.id)
        (fun x => { x with status := "COMPLETED", proof_url := proof_url }) s.milestones,
      escrows := escrows1 },
   er.2)

/-- `issuer_submit_milestone_proof` handler (app.py lines 650-697). -/
def issuer_submit_milestone_proof (s : LedgerState) (user_id : Nat) (role : String)
    (milestone_id : Nat) (proof_url : String) :
    Except ApiError (LedgerState × MilestoneResult) :=
  if role ≠ "ISSUER" then .error ⟨403, "Forbidden"⟩ else
  match findMilestone s milestone_id with
  | none => .error ⟨404, "Not found"⟩
  | some m =>
    match findProject s m.project_id with
    | none => .error ⟨404, "Project not found"⟩
    | some project =>
      if project.issuer_id ≠ user_id then .error ⟨403, "Forbidden"⟩ else
      if proof_url = "" then .error ⟨400, "Proof file not uploaded"⟩ else
      if m.status = "COMPLETED" then .ok (s, .alreadyCompleted) else
      let sr := submitProofApply s m proof_url
      .ok (sr.1, .released sr.2)

-- ---------- CREATE PROJECT (app.py, `issuer_create_project`) ----------

/-- Input of `issuer_create_project`; strings are taken after `.strip()`. -/
structure CreateProjectInput where
  title : String
  category : String
  location : String
  description : String
  funding_target : Int
  token_price : Int
  roi_percent : ℚ
  tenure_months : Int
  milestones : List (String × Int)
  deriving Repr, DecidableEq

/-- Risk scoring of `issuer_create_project` (app.py lines 547-551). -/
def risk_score_of (roi : ℚ) : Int :=
  if roi ≥ 13 then 70 else if roi ≤ 10 then 35 else 45

/-- Fixed default milestone plan (app.py lines 592-598). -/
def defaultMilestonePlan : List (String × Int) :=
  [("Tender Approved", 20), ("Construction Started", 20), ("25% Completion Proof", 20),
   ("50% Completion Proof", 20), ("Audit & Completion Report", 20)]

/-- Seed milestone rows for a new project, keeping only entries with a
    non-empty title and positive percent (the guard of the issuer-supplied
    branch; every default-plan entry passes it as well). -/
def seedMilestones (pid : Nat) (startId : Nat) : List (String × Int) → List Milestone
  | [] => []
  | (t, pc) :: rest =>
    if t ≠ "" ∧ pc > 0 then
      ⟨startId, pid, t, pc, "PENDING", ""⟩ :: seedMilestones pid (startId + 1) rest
    else seedMilestones pid startId rest

/-- `issuer_create_project` handler (app.py lines 521-616): validates the
    fields, creates a PENDING project with a computed risk score, a zero-balance
    escrow row, and the milestone plan. -/
def issuer_create_project (s : LedgerState) (user_id : Nat) (role : String)
    (inp : CreateProjectInput) : Except ApiError (LedgerState × Nat) :=
  if role ≠ "ISSUER" then .error ⟨403, "Forbidden"⟩ else
  if inp.title = "" ∨ inp.location = "" ∨ inp.description = "" then
    .error ⟨400, "Missing fields"⟩ else
  if inp.funding_target ≤ 0 ∨ inp.token_price ≤ 0 then
    .error ⟨400, "Invalid funding_target/token_price"⟩ else
  let pid := nextId (s.projects.map Project.id)
  let project : Project :=
    ⟨pid, user_id, inp.title, inp.category, inp.location, inp.description,
     inp.funding_target, 0, inp.token_price, inp.roi_percent, inp.tenure_months,
     "MEDIUM", risk_score_of inp.roi_percent, "PENDING"⟩
  let plan := if inp.milestones.length > 0 then inp.milestones else defaultMilestonePlan
  let ms := seedMilestones pid (nextId (s.milestones.map Milestone.id)) plan
  .ok ({ s with
          projects := s.projects ++ [project],
          escrows := s.escrows ++ [⟨pid, 0, 0⟩],
          milestones := s.milestones ++ ms },
       pid)

-- ---------- ADMIN STATUS (app.py, `admin_update_project_status`) ----------

/-- `admin_update_project_status` handler (app.py lines 779-797); `status` is
    taken after `.upper().strip()`. -/
def admin_update_project_status (s : LedgerState) (role : String)
    (project_id : Nat) (status : String) : Except ApiError (LedgerState × String) :=
  if role ≠ "ADMIN" then .error ⟨403, "Forbidden"⟩ else
  if ¬ (status = "ACTIVE" ∨ status = "FROZEN" ∨ status = "PENDING") then
    .error ⟨400, "Invalid status"⟩ else
  match findProject s project_id with
  | none => .error ⟨404, "Not found"⟩
  | some _ =>
    let projects1 := updateFirst (fun p => p.id == project_id)
      (fun p => { p with status := status }) s.projects
    .ok ({ s with projects := projects1 }, status)

-- ---------- ACTIVE LISTINGS VIEW (app.py, `marketplace_listings`) ----------

/-- One row of the public active-listings view. -/
structure ListingView where
  id : Nat
  project_id : Nat
  project_title : String
  seller_name : String
  token_count : Int
  price_per_token : Int
  status : String
  deriving Repr, DecidableEq

/-- `marketplace_listings` view (app.py lines 384-408, GET /api/marketplace/listings):
    ACTIVE listings whose project and seller exist and whose project is ACTIVE. -/
def marketplace_listings_view (s : LedgerState) : List ListingView :=
  (s.listings.filter (fun l => l.status == "ACTIVE")).filterMap (fun l =>
    match findProject s l.project_id, findUser s l.seller_id with
    | some p, some u =>
      if p.status ≠ "ACTIVE" then none
      else some ⟨l.id, p.id, p.title, u.name, l.token_count, l.price_per_token, l.status⟩
    | _, _ => none)

-- ---------- OPERATIONS AND REACHABILITY ----------

/-- The ledger-mutating operations of the backend. -/
inductive Op where
  | invest (user_id : Nat) (role : String) (project_id : Nat) (amount : Int) (tx_hash : String)
  | createListing (user_id : Nat) (project_id : Nat) (token_count price_per_token : Int)
  | buyListing (buyer_id : Nat) (listing_id : Nat) (tx_hash : String)
  | submitProof (user_id : Nat) (role : String) (milestone_id : Nat) (proof_url : String)
  | createProject (user_id : Nat) (role : String) (inp : CreateProjectInput)
  | setProjectStatus (role : String) (project_id : Nat) (status : String)
  deriving Repr

/-- One request against the ledger: the state after the handler runs.  A failing
    handler commits nothing, leaving the state unchanged. -/
def step (s : LedgerState) : Op → LedgerState
  | .invest u r pid a h =>
    match invest s u r pid a h with | .ok (s', _) => s' | .error _ => s
  | .createListing u pid n q =>
    match list_tokens_for_sale s u pid n q with | .ok (s', _) => s' | .error _ => s
  | .buyListing b lid h =>
    match buy_listing s b lid h with | .ok (s', _) => s' | .error _ => s
  | .submitProof u r mid pf =>
    match issuer_submit_milestone_proof s u r mid pf with | .ok (s', _) => s' | .error _ => s
  | .createProject u r inp =>
    match issuer_create_project s u r inp with | .ok (s', _) => s' | .error _ => s
  | .setProjectStatus r pid st =>
    match admin_update_project_status s r pid st with | .ok (s', _) => s' | .error _ => s

/-- A sequence of requests. -/
def run (s : LedgerState) : List Op → LedgerState
  | [] => s
  | op :: ops => run (step s op) ops

-- Keys recovered from successful lookups.

theorem findProject_some_id {s : LedgerState} {pid : Nat} {p : Project}
    (h : findProject s pid = some p) : p.id = pid := by
  have h2 : List.find? (fun q : Project => q.id == pid) s.projects = some p := h
  simpa using List.find?_some h2

theorem findEscrow_some_id {s : LedgerState} {pid : Nat} {e : Escrow}
    (h : findEscrow s pid = some e) : e.project_id = pid := by
  have h2 : List.find? (fun x : Escrow => x.project_id == pid) s.escrows = some e := h
  simpa using List.find?_some h2

theorem findHolding_some_key {s : LedgerState} {uid pid : Nat} {h0 : TokenHolding}
    (h : findHolding s uid pid = some h0) : h0.user_id = uid ∧ h0.project_id = pid := by
  have h2 : List.find? (fun x : TokenHolding => x.user_id == uid && x.project_id == pid)
      s.holdings = some h0 := h
  simpa using List.find?_some h2

theorem findListing_some_id {s : LedgerState} {lid : Nat} {l : MarketplaceListing}
    (h : findListing s lid = some l) : l.id = lid := by
  have h2 : List.find? (fun x : MarketplaceListing => x.id == lid) s.listings = some l := h
  simpa using List.find?_some h2

theorem findMilestone_some_id {s : LedgerState} {mid : Nat} {m : Milestone}
    (h : findMilestone s mid = some m) : m.id = mid := by
  have h2 : List.find? (fun x : Milestone => x.id == mid) s.milestones = some m := h
  simpa using List.find?_some h2

-- Success-path inversion of each handler.

theorem invest_ok_inv {s : LedgerState} {uid : Nat} {role : String} {pid : Nat}
    {A : Int} {txh : String} {s' : LedgerState} {out : InvestOk}
    (h : invest s uid role pid A txh = .ok (s', out)) :
    role = "INVESTOR" ∧ ∃ p, findProject s pid = some p ∧ p.status = "ACTIVE" ∧
      1 ≤ Int.fdiv A p.token_price ∧
      s' = investApply s uid p A (Int.fdiv A p.token_price) txh ∧
      out = ⟨txh, Int.fdiv A p.token_price⟩ := by
  simp only [invest] at h
  split at h
  · cases h
  next hrole =>
    push_neg at hrole
    split at h
    next hp => cases h
    next p hp =>
      split at h
      · cases h
      next hst =>
        push_neg at hst
        split at h
        · cases h
        next htok =>
          push_neg at htok
          simp only [Except.ok.injEq, Prod.mk.injEq] at h
          exact ⟨hrole, p, hp, hst, htok, h.1.symm, h.2.symm⟩

theorem buy_ok_inv {s : LedgerState} {buyer lid : Nat} {txh : String}
    {s' : LedgerState} {r : String}
    (h : buy_listing s buyer lid txh = .ok (s', r)) :
    ∃ listing seller_h p, findListing s lid = some listing ∧ listing.status = "ACTIVE" ∧
      buyer ≠ listing.seller_id ∧
      findProject s listing.project_id = some p ∧ p.status = "ACTIVE" ∧
      findHolding s listing.seller_id listing.project_id = some seller_h ∧
      listing.token_count ≤ seller_h.token_count ∧
      s' = buyApply s buyer listing txh ∧ r = txh := by
  simp only [buy_listing] at h
  split at h
  next hl => cases h
  next listing hl =>
    split at h
    · cases h
    next hact =>
      push_neg at hact
      split at h
      · cases h
      next hns =>
        split at h
        next hp => cases h
        next p hp =>
          split at h
          · cases h
          next hpa =>
            push_neg at hpa
            split at h
            next hsh => cases h
            next seller_h hsh =>
              split at h
              · cases h
              next hcnt =>
                push_neg at hcnt
                simp only [Except.ok.injEq, Prod.mk.injEq] at h
                exact ⟨listing, seller_h, p, hl, hact, hns, hp, hpa, hsh, hcnt,
                  h.1.symm, h.2.symm⟩

theorem createListing_ok_inv {s : LedgerState} {uid pid : Nat} {n q : Int}
    {s' : LedgerState} {lid : Nat}
    (h : list_tokens_for_sale s uid pid n q = .ok (s', lid)) :
    0 < n ∧ 0 < q ∧ ∃ h0, findHolding s uid pid = some h0 ∧ n ≤ h0.token_count ∧
      lid = nextId (s.listings.map MarketplaceListing.id) ∧
      s' = { s with listings := s.listings ++ [⟨lid, uid, pid, n, q, "ACTIVE"⟩] } := by
  simp only [list_tokens_for_sale] at h
  split at h
  · cases h
  next hpos =>
    push_neg at hpos
    split at h
    next hh => cases h
    next h0 hh =>
      split at h
      · cases h
      next hcnt =>
        push_neg at hcnt
        simp only [Except.ok.injEq, Prod.mk.injEq] at h
        exact ⟨hpos.1, hpos.2, h0, hh, hcnt, h.2.symm, by rw [← h.1, ← h.2]⟩

theorem submit_ok_inv {s : LedgerState} {uid : Nat} {role : String} {mid : Nat}
    {pf : String} {s' : LedgerState} {r : MilestoneResult}
    (h : issuer_submit_milestone_proof s uid role mid pf = .ok (s', r)) :
    role = "ISSUER" ∧ ∃ m project, findMilestone s mid = some m ∧
      findProject s m.project_id = some project ∧ project.issuer_id = uid ∧ pf ≠ "" ∧
      ((m.status = "COMPLETED" ∧ s' = s ∧ r = .alreadyCompleted) ∨
       (m.status ≠ "COMPLETED" ∧ s' = (submitProofApply s m pf).1 ∧
        r = .released (submitProofApply s m pf).2)) := by
  simp only [issuer_submit_milestone_proof] at h
  split at h
  · cases h
  next hrole =>
    push_neg at hrole
    split at h
    next hm => cases h
    next m hm =>
      split at h
      next hp => cases h
      next project hp =>
        split at h
        · cases h
        next hiss =>
          push_neg at hiss
          split at h
          · cases h
          next hpf =>
            split at h
            next hcomp =>
              simp only [Except.ok.injEq, Prod.mk.injEq] at h
              exact ⟨hrole, m, project, hm, hp, hiss, hpf,
                Or.inl ⟨hcomp, h.1.symm, h.2.symm⟩⟩
            next hcomp =>
              simp only [Except.ok.injEq, Prod.mk.injEq] at h
              exact ⟨hrole, m, project, hm, hp, hiss, hpf,
                Or.inr ⟨hcomp, h.1.symm, h.2.symm⟩⟩

-- Full description of a successful investment's effect on the ledger.

theorem invest_effects {s : LedgerState} {uid pid : Nat} {A : Int} {txh : String}
    {s' : LedgerState} {out : InvestOk} {p : Project}
    (hp : findProject s pid = some p)
    (h : invest s uid "INVESTOR" pid A txh = .ok (s', out)) :
    1 ≤ Int.fdiv A p.token_price ∧ p.status = "ACTIVE" ∧
    out = ⟨txh, Int.fdiv A p.token_price⟩ ∧
    findProject s' pid = some { p with funding_raised := p.funding_raised + A } ∧
    (∀ q, q ≠ pid → findProject s' q = findProject s q) ∧
    escrowLocked s' pid = escrowLocked s pid + A ∧
    escrowReleased s' pid = escrowReleased s pid ∧
    (∀ q, q ≠ pid → findEscrow s' q = findEscrow s q) ∧
    holdingCount s' uid pid = holdingCount s uid pid + Int.fdiv A p.token_price ∧
    holdingAvg s' uid pid =
      ((holdingCount s uid pid : ℚ) * holdingAvg s uid pid
        + ((Int.fdiv A p.token_price * p.token_price : Int) : ℚ))
       / ((holdingCount s uid pid + Int.fdiv A p.token_price : Int) : ℚ) ∧
    (∀ u q, ¬ (u = uid ∧ q = pid) → findHolding s' u q = findHolding s u q) ∧
    s'.transactions = s.transactions ++
      [⟨txh, uid, pid, "MINT", A, Int.fdiv A p.token_price, "SUCCESS"⟩] ∧
    s'.listings = s.listings ∧ s'.milestones = s.milestones ∧ s'.users = s.users := by
  obtain ⟨-, p', hp', hst, htok, hs', hout⟩ := invest_ok_inv h
  rw [hp] at hp'
  injection hp' with hpe
  subst hpe
  subst hs'
  subst hout
  have hid : p.id = pid := findProject_some_id hp
  subst hid
  have hp2 : List.find? (fun q : Project => q.id == p.id) s.projects = some p := hp
  refine ⟨htok, hst, rfl, ?_, ?_, ?_, ?_, ?_, ?_, ?_, ?_, rfl, rfl, rfl, rfl⟩
  · show (updateFirst (fun q : Project => q.id == p.id)
        (fun q => { q with funding_raised := q.funding_raised + A }) s.projects).find?
        (fun q : Project => q.id == p.id) = _
    rw [find?_updateFirst_self (fun q : Project => q.id == p.id)
      (fun q => { q with funding_raised := q.funding_raised + A }) s.projects
      (fun x hx => hx), hp2]
    rfl
  · intro q hq
    show (updateFirst (fun x : Project => x.id == p.id)
        (fun x => { x with funding_raised := x.funding_raised + A }) s.projects).find?
        (fun x : Project => x.id == q) = findProject s q
    exact find?_updateFirst_of_ne (fun x : Project => x.id == p.id)
      (fun x : Project => x.id == q)
      (fun x => { x with funding_raised := x.funding_raised + A }) s.projects
      (fun x hx => by simp at hx ⊢; omega) (fun x hx => by simp at hx ⊢; omega)
  · show (((upsertBy (fun e : Escrow => e.project_id == p.id) ⟨p.id, 0, 0⟩
        (fun e => { e with total_locked := e.total_locked + A }) s.escrows).find?
        (fun e : Escrow => e.project_id == p.id)).map Escrow.total_locked).getD 0 = _
    rw [find?_upsertBy_self (fun e : Escrow => e.project_id == p.id) ⟨p.id, 0, 0⟩
      (fun e => { e with total_locked := e.total_locked + A }) s.escrows
      (fun x hx => hx) (by simp)]
    cases hfe : List.find? (fun e : Escrow => e.project_id == p.id) s.escrows with
    | none => simp [hfe, escrowLocked, findEscrow]
    | some e => simp [hfe, escrowLocked, findEscrow]
  · show (((upsertBy (fun e : Escrow => e.project_id == p.id) ⟨p.id, 0, 0⟩
        (fun e => { e with total_locked := e.total_locked + A }) s.escrows).find?
        (fun e : Escrow => e.project_id == p.id)).map Escrow.total_released).getD 0 = _
    rw [find?_upsertBy_self (fun e : Escrow => e.project_id == p.id) ⟨p.id, 0, 0⟩
      (fun e => { e with total_locked := e.total_locked + A }) s.escrows
      (fun x hx => hx) (by simp)]
    cases hfe : List.find? (fun e : Escrow => e.project_id == p.id) s.escrows with
    | none => simp [hfe, escrowReleased, findEscrow]
    | some e => simp [hfe, escrowReleased, findEscrow]
  · intro q hq
    show (upsertBy (fun e : Escrow => e.project_id == p.id) ⟨p.id, 0, 0⟩
        (fun e => { e with total_locked := e.total_locked + A }) s.escrows).find?
        (fun e : Escrow => e.project_id == q) = findEscrow s q
    exact find?_upsertBy_of_ne (fun e : Escrow => e.project_id == p.id)
      (fun e : Escrow => e.project_id == q) ⟨p.id, 0, 0⟩
      (fun e => { e with total_locked := e.total_locked + A }) s.escrows
      (fun x hx => by simp at hx ⊢; omega) (fun x hx => by simp at hx ⊢; omega)
      (by simp; omega)
  · show (((upsertBy (fun x : TokenHolding => x.user_id == uid && x.project_id == p.id)
        ⟨uid, p.id, 0, 0⟩
        (fun x => { x with
          token_count := x.token_count + Int.fdiv A p.token_price,
          avg_buy_price := ((x.token_count : ℚ) * x.avg_buy_price
              + ((Int.fdiv A p.token_price * p.token_price : Int) : ℚ))
            / ((x.token_count + Int.fdiv A p.token_price : Int) : ℚ) })
        s.holdings).find?
        (fun x : TokenHolding => x.user_id == uid && x.project_id == p.id)).map
        TokenHolding.token_count).getD 0 = _
    rw [find?_upsertBy_self
      (fun x : TokenHolding => x.user_id == uid && x.project_id == p.id) ⟨uid, p.id, 0, 0⟩
      (fun x => { x with
        token_count := x.token_count + Int.fdiv A p.token_price,
        avg_buy_price := ((x.token_count : ℚ) * x.avg_buy_price
            + ((Int.fdiv A p.token_price * p.token_price : Int) : ℚ))
          / ((x.token_count + Int.fdiv A p.token_price : Int) : ℚ) })
      s.holdings (fun x hx => hx) (by simp)]
    cases hfh : List.find?
        (fun x : TokenHolding => x.user_id == uid && x.project_id == p.id) s.holdings with
    | none => simp [hfh, holdingCount, findHolding]
    | some h0 => simp [hfh, holdingCount, findHolding]
  · show (((upsertBy (fun x : TokenHolding => x.user_id == uid && x.project_id == p.id)
        ⟨uid, p.id, 0, 0⟩
        (fun x => { x with
          token_count := x.token_count + Int.fdiv A p.token_price,
          avg_buy_price := ((x.token_count : ℚ) * x.avg_buy_price
              + ((Int.fdiv A p.token_price * p.token_price : Int) : ℚ))
            / ((x.token_count + Int.fdiv A p.token_price : Int) : ℚ) })
        s.holdings).find?
        (fun x : TokenHolding => x.user_id == uid && x.project_id == p.id)).map
        TokenHolding.avg_buy_price).getD 0 = _
    rw [find?_upsertBy_self
      (fun x : TokenHolding => x.user_id == uid && x.project_id == p.id) ⟨uid, p.id, 0, 0⟩
      (fun x => { x with
        token_count := x.token_count + Int.fdiv A p.token_price,
        avg_buy_price := ((x.token_count : ℚ) * x.avg_buy_price
            + ((Int.fdiv A p.token_price * p.token_price : Int) : ℚ))
          / ((x.token_count + Int.fdiv A p.token_price : Int) : ℚ) })
      s.holdings (fun x hx => hx) (by simp)]
    cases hfh : List.find?
        (fun x : TokenHolding => x.user_id == uid && x.project_id == p.id) s.holdings with
    | none => simp [hfh, holdingCount, holdingAvg, findHolding]
    | some h0 => simp [hfh, holdingCount, holdingAvg, findHolding]
  · intro u q huq
    show (upsertBy (fun x : TokenHolding => x.user_id == uid && x.project_id == p.id)
        ⟨uid, p.id, 0, 0⟩
        (fun x => { x with
          token_count := x.token_count + Int.fdiv A p.token_price,
          avg_buy_price := ((x.token_count : ℚ) * x.avg_buy_price
              + ((Int.fdiv A p.token_price * p.token_price : Int) : ℚ))
            / ((x.token_count + Int.fdiv A p.token_price : Int) : ℚ) })
        s.holdings).find?
        (fun x : TokenHolding => x.user_id == u && x.project_id == q) = findHolding s u q
    have hkey : ∀ x : TokenHolding, (x.user_id == uid && x.project_id == p.id) = true →
        (x.user_id == u && x.project_id == q) = false := by
      intro x hx
      simp at hx
      simp [hx.1, hx.2]
      intro h1
      rcases Decidable.em (u = uid) with hu | hu
      · intro hq; exact huq ⟨hu, by omega⟩
      · omega
    refine find?_upsertBy_of_ne
      (fun x : TokenHolding => x.user_id == uid && x.project_id == p.id)
      (fun x : TokenHolding => x.user_id == u && x.project_id == q) ⟨uid, p.id, 0, 0⟩
      (fun x => { x with
        token_count := x.token_count + Int.fdiv A p.token_price,
        avg_buy_price := ((x.token_count : ℚ) * x.avg_buy_price
            + ((Int.fdiv A p.token_price * p.token_price : Int) : ℚ))
          / ((x.token_count + Int.fdiv A p.token_price : Int) : ℚ) })
      s.holdings hkey hkey ?_
    simp
    intro h1
    rcases Decidable.em (u = uid) with hu | hu
    · intro hq; exact huq ⟨hu, by omega⟩
    · omega

-- Full description of a successful marketplace purchase's effect on the ledger.

theorem buy_effects {s : LedgerState} {buyer lid : Nat} {txh : String}
    {s' : LedgerState} {r : String} {l : MarketplaceListing}
    (hl : findListing s lid = some l)
    (h : buy_listing s buyer lid txh = .ok (s', r)) :
    l.status = "ACTIVE" ∧ buyer ≠ l.seller_id ∧
    l.token_count ≤ holdingCount s l.seller_id l.project_id ∧
    findListing s' lid = some { l with status := "SOLD" } ∧
    (∀ j, j ≠ lid → findListing s' j = findListing s j) ∧
    holdingCount s' l.seller_id l.project_id
      = holdingCount s l.seller_id l.project_id - l.token_count ∧
    holdingCount s' buyer l.project_id
      = holdingCount s buyer l.project_id + l.token_count ∧
    holdingAvg s' buyer l.project_id = (l.price_per_token : ℚ) ∧
    (∀ u q, ¬ (u = buyer ∧ q = l.project_id) → ¬ (u = l.seller_id ∧ q = l.project_id) →
      findHolding s' u q = findHolding s u q) ∧
    s'.transactions = s.transactions ++
      [⟨txh, buyer, l.project_id, "TRANSFER", l.token_count * l.price_per_token,
        l.token_count, "SUCCESS"⟩] ∧
    s'.projects = s.projects ∧ s'.escrows = s.escrows ∧ s'.milestones = s.milestones ∧
    s'.users = s.users := by
  obtain ⟨l', seller_h, p, hl', hact, hns, hp, hpa, hsh, hcnt, hs', hr⟩ := buy_ok_inv h
  rw [hl] at hl'
  injection hl' with hle
  subst hle
  subst hs'
  have hid : l.id = lid := findListing_some_id hl
  subst hid
  have hl2 : List.find? (fun x : MarketplaceListing => x.id == l.id) s.listings = some l := hl
  have hsh2 : List.find?
      (fun x : TokenHolding => x.user_id == l.seller_id && x.project_id == l.project_id)
      s.holdings = some seller_h := hsh
  refine ⟨hact, hns, ?_, ?_, ?_, ?_, ?_, ?_, ?_, rfl, rfl, rfl, rfl, rfl⟩
  · simp [holdingCount, hsh]
    exact hcnt
  · show (updateFirst (fun x : MarketplaceListing => x.id == l.id)
        (fun x => { x with status := "SOLD" }) s.listings).find?
        (fun x : MarketplaceListing => x.id == l.id) = _
    rw [find?_updateFirst_self (fun x : MarketplaceListing => x.id == l.id)
      (fun x => { x with status := "SOLD" }) s.listings (fun x hx => hx), hl2]
    rfl
  · intro j hj
    show (updateFirst (fun x : MarketplaceListing => x.id == l.id)
        (fun x => { x with status := "SOLD" }) s.listings).find?
        (fun x : MarketplaceListing => x.id == j) = findListing s j
    exact find?_updateFirst_of_ne (fun x : MarketplaceListing => x.id == l.id)
      (fun x : MarketplaceListing => x.id == j)
      (fun x => { x with status := "SOLD" }) s.listings
      (fun x hx => by simp at hx ⊢; omega) (fun x hx => by simp at hx ⊢; omega)
  · show (((upsertBy
        (fun x : TokenHolding => x.user_id == buyer && x.project_id == l.project_id)
        ⟨buyer, l.project_id, 0, (l.price_per_token : ℚ)⟩
        (fun x => { x with token_count := x.token_count + l.token_count,
                           avg_buy_price := (l.price_per_token : ℚ) })
        (updateFirst
          (fun x : TokenHolding => x.user_id == l.seller_id && x.project_id == l.project_id)
          (fun x => { x with token_count := x.token_count - l.token_count })
          s.holdings)).find?
        (fun x : TokenHolding => x.user_id == l.seller_id && x.project_id == l.project_id)).map
        TokenHolding.token_count).getD 0 = _
    rw [find?_upsertBy_of_ne
      (fun x : TokenHolding => x.user_id == buyer && x.project_id == l.project_id)
      (fun x : TokenHolding => x.user_id == l.seller_id && x.project_id == l.project_id)
      ⟨buyer, l.project_id, 0, (l.price_per_token : ℚ)⟩
      (fun x => { x with token_count := x.token_count + l.token_count,
                         avg_buy_price := (l.price_per_token : ℚ) })
      (updateFirst
        (fun x : TokenHolding => x.user_id == l.seller_id && x.project_id == l.project_id)
        (fun x => { x with token_count := x.token_count - l.token_count })
        s.holdings)
      (fun x hx => by simp at hx ⊢; omega) (fun x hx => by simp at hx ⊢; omega)
      (by simp; omega)]
    rw [find?_updateFirst_self
      (fun x : TokenHolding => x.user_id == l.seller_id && x.project_id == l.project_id)
      (fun x => { x with token_count := x.token_count - l.token_count })
      s.holdings (fun x hx => hx), hsh2]
    simp [holdingCount, hsh]
  · show (((upsertBy
        (fun x : TokenHolding => x.user_id == buyer && x.project_id == l.project_id)
        ⟨buyer, l.project_id, 0, (l.price_per_token : ℚ)⟩
        (fun x => { x with token_count := x.token_count + l.token_count,
                           avg_buy_price := (l.price_per_token : ℚ) })
        (updateFirst
          (fun x : TokenHolding => x.user_id == l.seller_id && x.project_id == l.project_id)
          (fun x => { x with token_count := x.token_count - l.token_count })
          s.holdings)).find?
        (fun x : TokenHolding => x.user_id == buyer && x.project_id == l.project_id)).map
        TokenHolding.token_count).getD 0 = _
    rw [find?_upsertBy_self
      (fun x : TokenHolding => x.user_id == buyer && x.project_id == l.project_id)
      ⟨buyer, l.project_id, 0, (l.price_per_token : ℚ)⟩
      (fun x => { x with token_count := x.token_count + l.token_count,
                         avg_buy_price := (l.price_per_token : ℚ) })
      (updateFirst
        (fun x : TokenHolding => x.user_id == l.seller_id && x.project_id == l.project_id)
        (fun x => { x with token_count := x.token_count - l.token_count })
        s.holdings)
      (fun x hx => hx) (by simp)]
    rw [find?_updateFirst_of_ne
      (fun x : TokenHolding => x.user_id == l.seller_id && x.project_id == l.project_id)
      (fun x : TokenHolding => x.user_id == buyer && x.project_id == l.project_id)
      (fun x => { x with token_count := x.token_count - l.token_count })
      s.holdings
      (fun x hx => by simp at hx ⊢; omega) (fun x hx => by simp at hx ⊢; omega)]
    cases hfb : List.find?
        (fun x : TokenHolding => x.user_id == buyer && x.project_id == l.project_id)
        s.holdings with
    | none => simp [hfb, holdingCount, findHolding]
    | some b0 => simp [hfb, holdingCount, findHolding]
  · show (((upsertBy
        (fun x : TokenHolding => x.user_id == buyer && x.project_id == l.project_id)
        ⟨buyer, l.project_id, 0, (l.price_per_token : ℚ)⟩
        (fun x => { x with token_count := x.token_count + l.token_count,
                           avg_buy_price := (l.price_per_token : ℚ) })
        (updateFirst
          (fun x : TokenHolding => x.user_id == l.seller_id && x.project_id == l.project_id)
          (fun x => { x with token_count := x.token_count - l.token_count })
          s.holdings)).find?
        (fun x : TokenHolding => x.user_id == buyer && x.project_id == l.project_id)).map
        TokenHolding.avg_buy_price).getD 0 = _
    rw [find?_upsertBy_self
      (fun x : TokenHolding => x.user_id == buyer && x.project_id == l.project_id)
      ⟨buyer, l.project_id, 0, (l.price_per_token : ℚ)⟩
      (fun x => { x with token_count := x.token_count + l.token_count,
                         avg_buy_price := (l.price_per_token : ℚ) })
      (updateFirst
        (fun x : TokenHolding => x.user_id == l.seller_id && x.project_id == l.project_id)
        (fun x => { x with token_count := x.token_count - l.token_count })
        s.holdings)
      (fun x hx => hx) (by simp)]
    rfl
  · intro u q hu1 hu2
    show (upsertBy
        (fun x : TokenHolding => x.user_id == buyer && x.project_id == l.project_id)
        ⟨buyer, l.project_id, 0, (l.price_per_token : ℚ)⟩
        (fun x => { x with token_count := x.token_count + l.token_count,
                           avg_buy_price := (l.price_per_token : ℚ) })
        (updateFirst
          (fun x : TokenHolding => x.user_id == l.seller_id && x.project_id == l.project_id)
          (fun x => { x with token_count := x.token_count - l.token_count })
          s.holdings)).find?
        (fun x : TokenHolding => x.user_id == u && x.project_id == q) = findHolding s u q
    have hb : ∀ x : TokenHolding,
        (x.user_id == buyer && x.project_id == l.project_id) = true →
        (x.user_id == u && x.project_id == q) = false := by
      intro x hx
      simp at hx ⊢
      intro h1
      rcases Decidable.em (u = buyer) with hu | hu
      · intro hq; exact hu1 ⟨hu, by omega⟩
      · omega
    have hsf : ∀ x : TokenHolding,
        (x.user_id == l.seller_id && x.project_id == l.project_id) = true →
        (x.user_id == u && x.project_id == q) = false := by
      intro x hx
      simp at hx ⊢
      intro h1
      rcases Decidable.em (u = l.seller_id) with hu | hu
      · intro hq; exact hu2 ⟨hu, by omega⟩
      · omega
    rw [find?_upsertBy_of_ne
      (fun x : TokenHolding => x.user_id == buyer && x.project_id == l.project_id)
      (fun x : TokenHolding => x.user_id == u && x.project_id == q)
      ⟨buyer, l.project_id, 0, (l.price_per_token : ℚ)⟩
      (fun x => { x with token_count := x.token_count + l.token_count,
                         avg_buy_price := (l.price_per_token : ℚ) })
      (updateFirst
        (fun x : TokenHolding => x.user_id == l.seller_id && x.project_id == l.project_id)
        (fun x => { x with token_count := x.token_count - l.token_count })
        s.holdings)
      hb hb
      (by
        simp
        intro h1
        rcases Decidable.em (u = buyer) with hu | hu
        · intro hq; exact hu1 ⟨hu, by omega⟩
        · omega)]
    exact find?_updateFirst_of_ne
      (fun x : TokenHolding => x.user_id == l.seller_id && x.project_id == l.project_id)
      (fun x : TokenHolding => x.user_id == u && x.project_id == q)
      (fun x => { x with token_count := x.token_count - l.token_count })
      s.holdings hsf hsf

-- Full description of a PENDING-milestone proof submission's effect on the ledger.

theorem submit_effects {s : LedgerState} {uid mid : Nat} {pf : String}
    {s' : LedgerState} {res : MilestoneResult} {m : Milestone}
    (hm : findMilestone s mid = some m)
    (hpend : m.status ≠ "COMPLETED")
    (h : issuer_submit_milestone_proof s uid "ISSUER" mid pf = .ok (s', res)) :
    res = .released (min
      (Int.tdiv (escrowLocked s m.project_id * m.escrow_release_percent) 100)
      (escrowLocked s m.project_id)) ∧
    escrowLocked s' m.project_id = escrowLocked s m.project_id - (min
      (Int.tdiv (escrowLocked s m.project_id * m.escrow_release_percent) 100)
      (escrowLocked s m.project_id)) ∧
    escrowReleased s' m.project_id = escrowReleased s m.project_id + (min
      (Int.tdiv (escrowLocked s m.project_id * m.escrow_release_percent) 100)
      (escrowLocked s m.project_id)) ∧
    findMilestone s' mid = some { m with status := "COMPLETED", proof_url := pf } ∧
    s'.holdings = s.holdings ∧ s'.listings = s.listings ∧ s'.projects = s.projects ∧
    s'.transactions = s.transactions ∧ s'.users = s.users := by
  obtain ⟨-, m', project, hm', hp, hiss, hpf, hbranch⟩ := submit_ok_inv h
  rw [hm] at hm'
  injection hm' with hme
  subst hme
  rcases hbranch with ⟨hcomp, -, -⟩ | ⟨-, hs', hres⟩
  · exact absurd hcomp hpend
  subst hs'
  subst hres
  have hid : m.id = mid := findMilestone_some_id hm
  subst hid
  have hm2 : List.find? (fun x : Milestone => x.id == m.id) s.milestones = some m := hm
  have hL : ∀ e0 : Escrow, (findEscrow s m.project_id).getD ⟨m.project_id, 0, 0⟩ = e0 →
      e0.total_locked = escrowLocked s m.project_id ∧ e0.project_id = m.project_id ∧
      e0.total_released = escrowReleased s m.project_id := by
    intro e0 he0
    cases hfe : findEscrow s m.project_id with
    | none => rw [hfe] at he0; subst he0
              simp [escrowLocked, escrowReleased, hfe]
    | some e => rw [hfe] at he0; subst he0
                exact ⟨by simp [escrowLocked, hfe], findEscrow_some_id hfe,
                  by simp [escrowReleased, hfe]⟩
  obtain ⟨hLlock, hLpid, hLrel⟩ := hL _ rfl
  have hamt : (escrowRelease ((findEscrow s m.project_id).getD ⟨m.project_id, 0, 0⟩)
      m.escrow_release_percent).2 = min
      (Int.tdiv (escrowLocked s m.project_id * m.escrow_release_percent) 100)
      (escrowLocked s m.project_id) := by
    simp only [escrowRelease, hLlock]
    rcases le_or_lt (Int.tdiv (escrowLocked s m.project_id * m.escrow_release_percent) 100)
        (escrowLocked s m.project_id) with hle | hlt
    · rw [if_neg (by omega), min_eq_left hle]
    · rw [if_pos hlt, min_eq_right (le_of_lt hlt)]
  have hesc : List.find? (fun e : Escrow => e.project_id == m.project_id)
      (submitProofApply s m pf).1.escrows
      = some (escrowRelease ((findEscrow s m.project_id).getD ⟨m.project_id, 0, 0⟩)
          m.escrow_release_percent).1 := by
    cases hfe : findEscrow s m.project_id with
    | some e =>
      have he2 : List.find? (fun x : Escrow => x.project_id == m.project_id) s.escrows
          = some e := hfe
      have hpe : e.project_id = m.project_id := findEscrow_some_id hfe
      simp only [submitProofApply, hfe, Option.isSome_some, Option.getD_some, if_true]
      rw [find?_updateFirst_self (fun x : Escrow => x.project_id == m.project_id)
        (fun _ => (escrowRelease e m.escrow_release_percent).1) s.escrows
        (fun x hx => by simpa [escrowRelease] using hpe), he2]
      rfl
    | none =>
      have he2 : List.find? (fun x : Escrow => x.project_id == m.project_id) s.escrows
          = none := hfe
      simp only [submitProofApply, hfe, Option.isSome_none, Option.getD_none,
        Bool.false_eq_true, if_false]
      rw [find?_append_none _ _ _ he2]
      simp [List.find?_cons, escrowRelease]
  refine ⟨?_, ?_, ?_, ?_, rfl, rfl, rfl, rfl, rfl⟩
  · show MilestoneResult.released (escrowRelease ((findEscrow s m.project_id).getD
        ⟨m.project_id, 0, 0⟩) m.escrow_release_percent).2 = _
    rw [hamt]
  · show ((List.find? (fun e : Escrow => e.project_id == m.project_id)
        (submitProofApply s m pf).1.escrows).map Escrow.total_locked).getD 0 = _
    rw [hesc, ← hamt]
    simp only [escrowRelease, Option.map_some', Option.getD_some, hLlock]
  · show ((List.find? (fun e : Escrow => e.project_id == m.project_id)
        (submitProofApply s m pf).1.escrows).map Escrow.total_released).getD 0 = _
    rw [hesc, ← hamt]
    simp only [escrowRelease, Option.map_some', Option.getD_some, hLrel]
  · show (updateFirst (fun x : Milestone => x.id == m.id)
        (fun x => { x with status := "COMPLETED", proof_url := pf }) s.milestones).find?
        (fun x : Milestone => x.id == m.id) = _
    rw [find?_updateFirst_self (fun x : Milestone => x.id == m.id)
      (fun x => { x with status := "COMPLETED", proof_url := pf }) s.milestones
      (fun x hx => hx), hm2]
    rfl

-- Concrete states mirroring the seeded demo data, used to exercise the theorems.

/-- An ACTIVE seeded project (seed.py): token_price 100, funding_raised 1000. -/
def demoProj10 : Project :=
  ⟨10, 2, "Raipur Smart Road Phase-2", "Road", "Raipur, Chhattisgarh",
   "Smart road upgrade", 5000000, 1000, 100, 12, 24, "MEDIUM", 58, "ACTIVE"⟩

/-- A PENDING seeded project awaiting admin approval. -/
def demoProj11 : Project :=
  ⟨11, 2, "Lucknow Smart Traffic Signal System", "Smart City", "Lucknow",
   "Adaptive signals", 9500000, 0, 100, 12, 30, "MEDIUM", 52, "PENDING"⟩

/-- A small ledger state in the shape produced by seed.py plus some activity:
    one ACTIVE and one PENDING project, an escrow with 1000 locked, two investor
    holdings, one PENDING and one COMPLETED milestone, and three listings
    (two ACTIVE — one of them over-listed — and one already SOLD). -/
def demoState : LedgerState :=
  ⟨[⟨1, "Admin", "admin@infrabondx.com", "h1", "ADMIN"⟩,
    ⟨2, "Raipur Smart Infra Dept", "issuer@infrabondx.com", "h2", "ISSUER"⟩,
    ⟨3, "Mandeep Kumar", "investor@infrabondx.com", "h3", "INVESTOR"⟩,
    ⟨4, "Second Investor", "buyer@infrabondx.com", "h4", "INVESTOR"⟩],
   [demoProj10, demoProj11],
   [⟨100, 10, "Tender Approved", 20, "PENDING", ""⟩,
    ⟨101, 10, "Construction Started", 20, "COMPLETED", "/uploads/a.pdf"⟩],
   [⟨10, 1000, 0⟩],
   [⟨3, 10, 50, 100⟩, ⟨4, 10, 7, 80⟩],
   [],
   [⟨5, 3, 10, 20, 90, "ACTIVE"⟩, ⟨6, 3, 10, 999, 90, "ACTIVE"⟩,
    ⟨7, 3, 10, 5, 90, "SOLD"⟩]⟩

/-- The ledger after user 3 invests 250 into project 10 of `demoState`:
    funding and escrow up by 250, 2 tokens minted at price 100. -/
def c1ResultState : LedgerState :=
  ⟨demoState.users,
   [{ demoProj10 with funding_raised := 1250 }, demoProj11],
   demoState.milestones,
   [⟨10, 1250, 0⟩],
   [⟨3, 10, 52, 100⟩, ⟨4, 10, 7, 80⟩],
   [⟨"0xaaa", 3, 10, "MINT", 250, 2, "SUCCESS"⟩],
   demoState.listings⟩

/-- C1: every successful investment by an authenticated INVESTOR of cash amount A
    into an ACTIVE project with token price P increments the project's
    funding_raised by exactly A, increments the project's escrow total_locked by
    exactly A, credits the investor's holding with floor(A/P) tokens, and appends
    exactly one MINT SUCCESS transaction recording amount A and floor(A/P) tokens;
    every other project, escrow and holding, and all listings and milestones, are
    unchanged. -/
theorem c1_invest_updates_exactly_the_ledger
    {s : LedgerState} {uid pid : Nat} {A : Int} {txh : String}
    {s' : LedgerState} {out : InvestOk} {p : Project}
    (hp : findProject s pid = some p) (_hact : p.status = "ACTIVE")
    (h : invest s uid "INVESTOR" pid A txh = .ok (s', out)) :
    findProject s' pid = some { p with funding_raised := p.funding_raised + A } ∧
    escrowLocked s' pid = escrowLocked s pid + A ∧
    holdingCount s' uid pid = holdingCount s uid pid + Int.fdiv A p.token_price ∧
    s'.transactions = s.transactions ++
      [⟨txh, uid, pid, "MINT", A, Int.fdiv A p.token_price, "SUCCESS"⟩] ∧
    (∀ q, q ≠ pid → findProject s' q = findProject s q) ∧
    (∀ q, q ≠ pid → findEscrow s' q = findEscrow s q) ∧
    (∀ u q, ¬ (u = uid ∧ q = pid) → findHolding s' u q = findHolding s u q) ∧
    s'.listings = s.listings ∧ s'.milestones = s.milestones ∧ s'.users = s.users := by
  obtain ⟨-, -, -, h4, h5, h6, -, h8, h9, -, h11, h12, h13, h14, h15⟩ := invest_effects hp h
  exact ⟨h4, h6, h9, h12, h5, h8, h11, h13, h14, h15⟩

/-- Witness for C1: user 3 invests 250 into ACTIVE project 10 (price 100) of the
    demo ledger; all the claimed deltas hold concretely. -/
theorem c1_invest_updates_exactly_the_ledger_witness :
    findProject c1ResultState 10
      = some { demoProj10 with funding_raised := demoProj10.funding_raised + 250 } ∧
    escrowLocked c1ResultState 10 = escrowLocked demoState 10 + 250 ∧
    holdingCount c1ResultState 3 10
      = holdingCount demoState 3 10 + Int.fdiv 250 demoProj10.token_price ∧
    c1ResultState.transactions = demoState.transactions ++
      [⟨"0xaaa", 3, 10, "MINT", 250, Int.fdiv 250 demoProj10.token_price, "SUCCESS"⟩] ∧
    (∀ q, q ≠ 10 → findProject c1ResultState q = findProject demoState q) ∧
    (∀ q, q ≠ 10 → findEscrow c1ResultState q = findEscrow demoState q) ∧
    (∀ u q, ¬ (u = 3 ∧ q = 10) → findHolding c1ResultState u q = findHolding demoState u q) ∧
    c1ResultState.listings = demoState.listings ∧
    c1ResultState.milestones = demoState.milestones ∧
    c1ResultState.users = demoState.users :=
  @c1_invest_updates_exactly_the_ledger demoState 3 10 250 "0xaaa" c1ResultState
    ⟨"0xaaa", 2⟩ demoProj10 (by rfl) (by rfl)
    (by norm_num [invest, investApply, upsertBy, updateFirst, demoState, demoProj10,
      demoProj11, c1ResultState, findProject, List.find?, List.any,
      show Int.fdiv 250 100 = 2 from by rfl])

/-- C4: a successful marketplace buy OVERWRITES the buyer's avg_buy_price with the
    listing's price_per_token (no averaging with any prior basis), increments the
    buyer's token_count by the listing's token_count, decrements the seller's by
    the same, and appends one TRANSFER transaction for token_count * price. -/
theorem c4_buy_overwrites_buyer_avg_price
    {s : LedgerState} {buyer lid : Nat} {txh : String}
    {s' : LedgerState} {r : String} {l : MarketplaceListing}
    (hl : findListing s lid = some l)
    (h : buy_listing s buyer lid txh = .ok (s', r)) :
    holdingAvg s' buyer l.project_id = (l.price_per_token : ℚ) ∧
    holdingCount s' buyer l.project_id = holdingCount s buyer l.project_id + l.token_count ∧
    holdingCount s' l.seller_id l.project_id
      = holdingCount s l.seller_id l.project_id - l.token_count ∧
    s'.transactions = s.transactions ++
      [⟨txh, buyer, l.project_id, "TRANSFER", l.token_count * l.price_per_token,
        l.token_count, "SUCCESS"⟩] := by
  obtain ⟨-, -, -, -, -, h6, h7, h8, -, h10, -, -, -, -⟩ := buy_effects hl h
  exact ⟨h8, h7, h6, h10⟩

/-- The ledger after user 4 buys listing 5 (20 tokens at 90) of `demoState`:
    buyer 4 previously held 7 tokens at average price 80, and ends with 27 tokens
    at average price 90 — the listing price, not a weighted average. -/
def c4ResultState : LedgerState :=
  ⟨demoState.users,
   demoState.projects,
   demoState.milestones,
   demoState.escrows,
   [⟨3, 10, 30, 100⟩, ⟨4, 10, 27, 90⟩],
   [⟨"0xbbb", 4, 10, "TRANSFER", 1800, 20, "SUCCESS"⟩],
   [⟨5, 3, 10, 20, 90, "SOLD"⟩, ⟨6, 3, 10, 999, 90, "ACTIVE"⟩,
    ⟨7, 3, 10, 5, 90, "SOLD"⟩]⟩

/-- Witness for C4: user 4, already holding 7 tokens of project 10 at average
    price 80, buys listing 5 (20 tokens at 90); the stored average becomes 90. -/
theorem c4_buy_overwrites_buyer_avg_price_witness :
    holdingAvg c4ResultState 4 10 = ((90 : Int) : ℚ) ∧
    holdingCount c4ResultState 4 10 = holdingCount demoState 4 10 + 20 ∧
    holdingCount c4ResultState 3 10 = holdingCount demoState 3 10 - 20 ∧
    c4ResultState.transactions = demoState.transactions ++
      [⟨"0xbbb", 4, 10, "TRANSFER", 20 * 90, 20, "SUCCESS"⟩] :=
  @c4_buy_overwrites_buyer_avg_price demoState 4 5 "0xbbb" c4ResultState "0xbbb"
    ⟨5, 3, 10, 20, 90, "ACTIVE"⟩ (by rfl)
    (by norm_num [buy_listing, buyApply, upsertBy, updateFirst, demoState, demoProj10,
      demoProj11, c4ResultState, findProject, findListing, findHolding,
      List.find?, List.any])

/-- C5: on an ACTIVE project with token price P > 0, an investment of amount ≥ P
    succeeds and issues floor(amount/P) ≥ 1 tokens, while an investment of
    amount < P is rejected with the "Amount too low" validation error, leaving
    the ledger unchanged. -/
theorem c5_amount_threshold
    {s : LedgerState} {uid pid : Nat} {A : Int} {txh : String} {p : Project}
    (hp : findProject s pid = some p) (hact : p.status = "ACTIVE")
    (hP : 0 < p.token_price) :
    (p.token_price ≤ A →
      invest s uid "INVESTOR" pid A txh
        = .ok (investApply s uid p A (Int.fdiv A p.token_price) txh,
               ⟨txh, Int.fdiv A p.token_price⟩) ∧
      1 ≤ Int.fdiv A p.token_price) ∧
    (A < p.token_price →
      invest s uid "INVESTOR" pid A txh = .error ⟨400, "Amount too low"⟩ ∧
      step s (Op.invest uid "INVESTOR" pid A txh) = s) := by
  have hconv : Int.fdiv A p.token_price = A / p.token_price :=
    Int.fdiv_eq_ediv A (le_of_lt hP)
  constructor
  · intro hA
    have htok : 1 ≤ Int.fdiv A p.token_price := by
      rw [hconv, Int.le_ediv_iff_mul_le hP]
      omega
    have hnot : ¬ Int.fdiv A p.token_price ≤ 0 := by omega
    refine ⟨?_, htok⟩
    simp [invest, hp, hact, hnot]
  · intro hA
    have htok : Int.fdiv A p.token_price ≤ 0 := by
      by_contra hc
      push_neg at hc
      rw [hconv] at hc
      have h1 : 1 ≤ A / p.token_price := hc
      rw [Int.le_ediv_iff_mul_le hP] at h1
      omega
    have hinv : invest s uid "INVESTOR" pid A txh = .error ⟨400, "Amount too low"⟩ := by
      simp [invest, hp, hact, htok]
    exact ⟨hinv, by simp [step, hinv]⟩

/-- Witness for C5: in the demo ledger (project 10, price 100), investing 250
    succeeds with 2 tokens; investing 99 fails with "Amount too low" and leaves
    the state unchanged. -/
theorem c5_amount_threshold_witness :
    ((100 : Int) ≤ 250 →
      invest demoState 3 "INVESTOR" 10 250 "0xccc"
        = .ok (investApply demoState 3 demoProj10 250 (Int.fdiv 250 100) "0xccc",
               ⟨"0xccc", Int.fdiv 250 100⟩) ∧
      1 ≤ Int.fdiv 250 100) ∧
    ((99 : Int) < 100 →
      invest demoState 3 "INVESTOR" 10 99 "0xccc" = .error ⟨400, "Amount too low"⟩ ∧
      step demoState (Op.invest 3 "INVESTOR" 10 99 "0xccc") = demoState) :=
  ⟨fun hA => by
      have := (@c5_amount_threshold demoState 3 10 250 "0xccc" demoProj10
        (by rfl) (by rfl) (by norm_num [demoProj10])).1
      exact this (by norm_num [demoProj10]),
   fun hA => by
      have := (@c5_amount_threshold demoState 3 10 99 "0xccc" demoProj10
        (by rfl) (by rfl) (by norm_num [demoProj10])).2
      exact this (by norm_num [demoProj10])⟩

/-- C6: a buy attempt on an ACTIVE listing whose seller currently holds fewer
    tokens than the listing's token_count fails with the insufficient-tokens
    conflict error and changes nothing — even though the listing itself exists
    (enforcement happens at buy time, not listing time). -/
theorem c6_buy_fails_on_insufficient_seller_balance
    {s : LedgerState} {buyer lid : Nat} {txh : String} {l : MarketplaceListing}
    {p : Project}
    (hl : findListing s lid = some l) (hact : l.status = "ACTIVE")
    (hns : buyer ≠ l.seller_id)
    (hp : findProject s l.project_id = some p) (hpa : p.status = "ACTIVE")
    (hins : holdingCount s l.seller_id l.project_id < l.token_count) :
    buy_listing s buyer lid txh = .error ⟨400, "Seller has insufficient tokens"⟩ ∧
    step s (Op.buyListing buyer lid txh) = s := by
  have hbuy : buy_listing s buyer lid txh
      = .error ⟨400, "Seller has insufficient tokens"⟩ := by
    cases hsh : findHolding s l.seller_id l.project_id with
    | none => simp [buy_listing, hl, hact, hns, hp, hpa, hsh]
    | some sh =>
      have : sh.token_count < l.token_count := by
        simpa [holdingCount, hsh] using hins
      simp [buy_listing, hl, hact, hns, hp, hpa, hsh, this]
  exact ⟨hbuy, by simp [step, hbuy]⟩

/-- Witness for C6: listing 6 of the demo ledger offers 999 tokens but seller 3
    holds only 50 at buy time; user 4's buy fails with the conflict error and
    the ledger is unchanged. -/
theorem c6_buy_fails_on_insufficient_seller_balance_witness :
    buy_listing demoState 4 6 "0xddd" = .error ⟨400, "Seller has insufficient tokens"⟩ ∧
    step demoState (Op.buyListing 4 6 "0xddd") = demoState :=
  @c6_buy_fails_on_insufficient_seller_balance demoState 4 6 "0xddd"
    ⟨6, 3, 10, 999, 90, "ACTIVE"⟩ demoProj10
    (by rfl) (by rfl) (by decide) (by rfl) (by rfl) (by decide)

/-- C8: resubmitting a proof for an already COMPLETED milestone by the owning
    issuer returns the idempotent "Already completed" success and performs no
    state change whatsoever: the returned state is the input state itself. -/
theorem c8_resubmission_is_idempotent
    {s : LedgerState} {uid mid : Nat} {pf : String} {m : Milestone} {project : Project}
    (hm : findMilestone s mid = some m) (hcomp : m.status = "COMPLETED")
    (hp : findProject s m.project_id = some project)
    (hiss : project.issuer_id = uid) (hpf : pf ≠ "") :
    issuer_submit_milestone_proof s uid "ISSUER" mid pf = .ok (s, .alreadyCompleted) ∧
    step s (Op.submitProof uid "ISSUER" mid pf) = s := by
  have hsub : issuer_submit_milestone_proof s uid "ISSUER" mid pf
      = .ok (s, .alreadyCompleted) := by
    simp [issuer_submit_milestone_proof, hm, hp, hiss, hpf, hcomp]
  exact ⟨hsub, by simp [step, hsub]⟩

/-- Witness for C8: milestone 101 of the demo ledger is COMPLETED; issuer 2
    resubmits a proof and gets the idempotent success with the state unchanged. -/
theorem c8_resubmission_is_idempotent_witness :
    issuer_submit_milestone_proof demoState 2 "ISSUER" 101 "/uploads/b.pdf"
      = .ok (demoState, .alreadyCompleted) ∧
    step demoState (Op.submitProof 2 "ISSUER" 101 "/uploads/b.pdf") = demoState :=
  @c8_resubmission_is_idempotent demoState 2 101 "/uploads/b.pdf"
    ⟨101, 10, "Construction Started", 20, "COMPLETED", "/uploads/a.pdf"⟩ demoProj10
    (by rfl) (by rfl) (by rfl) (by rfl) (by decide)

/-- C2: completing a PENDING milestone with percent p (0 ≤ p ≤ 100) on a project
    whose escrow currently holds L ≥ 0 releases exactly floor(L*p/100) clamped to
    L: total_locked drops by that amount, total_released rises by the same
    amount, and total_locked stays non-negative.  The percent applies to the
    CURRENT total_locked at release time, as the formula's `escrowLocked s`
    (the pre-release value) shows. -/
theorem c2_release_is_clamped_percent_of_current_locked
    {s : LedgerState} {uid mid : Nat} {pf : String} {s' : LedgerState}
    {res : MilestoneResult} {m : Milestone}
    (hm : findMilestone s mid = some m) (hpend : m.status = "PENDING")
    (hp0 : 0 ≤ m.escrow_release_percent) (_hp100 : m.escrow_release_percent ≤ 100)
    (hL0 : 0 ≤ escrowLocked s m.project_id)
    (h : issuer_submit_milestone_proof s uid "ISSUER" mid pf = .ok (s', res)) :
    res = .released (min (escrowLocked s m.project_id * m.escrow_release_percent / 100)
        (escrowLocked s m.project_id)) ∧
    escrowLocked s' m.project_id = escrowLocked s m.project_id
      - min (escrowLocked s m.project_id * m.escrow_release_percent / 100)
          (escrowLocked s m.project_id) ∧
    escrowReleased s' m.project_id = escrowReleased s m.project_id
      + min (escrowLocked s m.project_id * m.escrow_release_percent / 100)
          (escrowLocked s m.project_id) ∧
    0 ≤ escrowLocked s' m.project_id := by
  have hne : m.status ≠ "COMPLETED" := by rw [hpend]; decide
  obtain ⟨h1, h2, h3, -, -, -, -, -, -⟩ := submit_effects hm hne h
  have hconv : Int.tdiv (escrowLocked s m.project_id * m.escrow_release_percent) 100
      = escrowLocked s m.project_id * m.escrow_release_percent / 100 :=
    Int.tdiv_eq_ediv (mul_nonneg hL0 hp0) (by norm_num)
  rw [hconv] at h1 h2 h3
  refine ⟨h1, h2, h3, ?_⟩
  rw [h2]
  have hmin := min_le_right
    (escrowLocked s m.project_id * m.escrow_release_percent / 100)
    (escrowLocked s m.project_id)
  omega

/-- The demo ledger after issuer 2 completes PENDING milestone 100 (20%) of
    project 10: 200 of the 1000 locked moves to released. -/
def c2ResultState : LedgerState :=
  ⟨demoState.users, demoState.projects,
   [⟨100, 10, "Tender Approved", 20, "COMPLETED", "/uploads/c.pdf"⟩,
    ⟨101, 10, "Construction Started", 20, "COMPLETED", "/uploads/a.pdf"⟩],
   [⟨10, 800, 200⟩],
   demoState.holdings, demoState.transactions, demoState.listings⟩

/-- Witness for C2: milestone 100 (percent 20, PENDING) on escrow 1000 releases
    min(1000*20/100, 1000) = 200; locked becomes 800, released 200 ≥ 0. -/
theorem c2_release_is_clamped_percent_of_current_locked_witness :
    MilestoneResult.released 200 = .released
      (min (escrowLocked demoState 10 * 20 / 100) (escrowLocked demoState 10)) ∧
    escrowLocked c2ResultState 10 = escrowLocked demoState 10
      - min (escrowLocked demoState 10 * 20 / 100) (escrowLocked demoState 10) ∧
    escrowReleased c2ResultState 10 = escrowReleased demoState 10
      + min (escrowLocked demoState 10 * 20 / 100) (escrowLocked demoState 10) ∧
    0 ≤ escrowLocked c2ResultState 10 :=
  @c2_release_is_clamped_percent_of_current_locked demoState 2 100 "/uploads/c.pdf"
    c2ResultState (.released 200) ⟨100, 10, "Tender Approved", 20, "PENDING", ""⟩
    (by rfl) (by rfl) (by decide) (by decide) (by decide) (by rfl)

/-- C3: a successful mint into a holding of c tokens at average price a issues
    t = floor(A/P) tokens and leaves the holding with c + t tokens at average
    price (c*a + t*P)/(c + t); consequently two mints of (t1, p1) then (t2, p2)
    into an initially empty holding leave avg_buy_price =
    (t1*p1 + t2*p2)/(t1 + t2). -/
theorem c3_weighted_average_cost_basis :
    (∀ (s : LedgerState) (uid pid : Nat) (A : Int) (txh : String)
        (s' : LedgerState) (out : InvestOk) (p : Project),
      findProject s pid = some p →
      invest s uid "INVESTOR" pid A txh = .ok (s', out) →
      holdingCount s' uid pid = holdingCount s uid pid + Int.fdiv A p.token_price ∧
      holdingAvg s' uid pid =
        ((holdingCount s uid pid : ℚ) * holdingAvg s uid pid
          + ((Int.fdiv A p.token_price : Int) : ℚ) * ((p.token_price : Int) : ℚ))
         / (((holdingCount s uid pid : Int) : ℚ) + ((Int.fdiv A p.token_price : Int) : ℚ))) ∧
    (∀ (s0 : LedgerState) (uid pid : Nat) (A1 A2 : Int) (u1 u2 : String)
        (s1 s2 : LedgerState) (o1 o2 : InvestOk) (q1 q2 : Project),
      findHolding s0 uid pid = none →
      findProject s0 pid = some q1 →
      invest s0 uid "INVESTOR" pid A1 u1 = .ok (s1, o1) →
      findProject s1 pid = some q2 →
      invest s1 uid "INVESTOR" pid A2 u2 = .ok (s2, o2) →
      holdingAvg s2 uid pid =
        (((Int.fdiv A1 q1.token_price : Int) : ℚ) * ((q1.token_price : Int) : ℚ)
          + ((Int.fdiv A2 q2.token_price : Int) : ℚ) * ((q2.token_price : Int) : ℚ))
         / (((Int.fdiv A1 q1.token_price : Int) : ℚ)
            + ((Int.fdiv A2 q2.token_price : Int) : ℚ))) := by
  have main : ∀ (s : LedgerState) (uid pid : Nat) (A : Int) (txh : String)
      (s' : LedgerState) (out : InvestOk) (p : Project),
      findProject s pid = some p →
      invest s uid "INVESTOR" pid A txh = .ok (s', out) →
      holdingCount s' uid pid = holdingCount s uid pid + Int.fdiv A p.token_price ∧
      holdingAvg s' uid pid =
        ((holdingCount s uid pid : ℚ) * holdingAvg s uid pid
          + ((Int.fdiv A p.token_price : Int) : ℚ) * ((p.token_price : Int) : ℚ))
         / (((holdingCount s uid pid : Int) : ℚ) + ((Int.fdiv A p.token_price : Int) : ℚ)) := by
    intro s uid pid A txh s' out p hp h
    obtain ⟨htok, -, -, -, -, -, -, -, h9, h10, -, -, -, -, -⟩ := invest_effects hp h
    refine ⟨h9, ?_⟩
    rw [h10]
    push_cast
    ring
  refine ⟨main, ?_⟩
  intro s0 uid pid A1 A2 u1 u2 s1 s2 o1 o2 q1 q2 hh0 hp0 h1 hp1 h2
  obtain ⟨ht1, -, -, -, -, -, -, -, -, -, -, -, -, -, -⟩ := invest_effects hp0 h1
  obtain ⟨ht2, -, -, -, -, -, -, -, -, -, -, -, -, -, -⟩ := invest_effects hp1 h2
  obtain ⟨h9a, h10a⟩ := main s0 uid pid A1 u1 s1 o1 q1 hp0 h1
  obtain ⟨h9b, h10b⟩ := main s1 uid pid A2 u2 s2 o2 q2 hp1 h2
  have hc0 : holdingCount s0 uid pid = 0 := by simp [holdingCount, hh0]
  have ha0 : holdingAvg s0 uid pid = 0 := by simp [holdingAvg, hh0]
  rw [hc0] at h9a
  rw [hc0, ha0] at h10a
  rw [h9a, h10a] at h10b
  rw [h10b]
  have ht1Q : ((Int.fdiv A1 q1.token_price : Int) : ℚ) ≠ 0 := by
    rw [Int.cast_ne_zero]
    omega
  have ht12Q : ((Int.fdiv A1 q1.token_price : Int) : ℚ)
      + ((Int.fdiv A2 q2.token_price : Int) : ℚ) ≠ 0 := by
    rw [← Int.cast_add, Int.cast_ne_zero]
    omega
  push_cast
  push_cast at ht1Q ht12Q
  field_simp

/-- First ledger state of the two-mint scenario: fresh investor 5 puts 250 into
    project 10 (2 tokens at 100). -/
def c3S1 : LedgerState :=
  investApply demoState 5 demoProj10 250 (Int.fdiv 250 demoProj10.token_price) "0xe1"

/-- Project 10 as it stands inside `c3S1`. -/
def c3Proj10b : Project :=
  { demoProj10 with funding_raised := demoProj10.funding_raised + 250 }

/-- Second ledger state of the two-mint scenario: the same investor adds 350
    (3 tokens at 100). -/
def c3S2 : LedgerState :=
  investApply c3S1 5 c3Proj10b 350 (Int.fdiv 350 c3Proj10b.token_price) "0xe2"

/-- Witness for C3: two mints of (2, 100) then (3, 100) into the initially empty
    holding of user 5 leave avg_buy_price = (2*100 + 3*100)/(2+3). -/
theorem c3_weighted_average_cost_basis_witness :
    holdingAvg c3S2 5 10 =
      (((Int.fdiv 250 demoProj10.token_price : Int) : ℚ)
          * ((demoProj10.token_price : Int) : ℚ)
        + ((Int.fdiv 350 c3Proj10b.token_price : Int) : ℚ)
          * ((c3Proj10b.token_price : Int) : ℚ))
       / (((Int.fdiv 250 demoProj10.token_price : Int) : ℚ)
          + ((Int.fdiv 350 c3Proj10b.token_price : Int) : ℚ)) :=
  c3_weighted_average_cost_basis.2 demoState 5 10 250 350 "0xe1" "0xe2" c3S1 c3S2
    ⟨"0xe1", Int.fdiv 250 demoProj10.token_price⟩
    ⟨"0xe2", Int.fdiv 350 c3Proj10b.token_price⟩
    demoProj10 c3Proj10b (by rfl) (by rfl) (by rfl) (by rfl) (by rfl)

-- Frame facts for the two remaining operations.

theorem admin_status_ok_frames {s : LedgerState} {role : String} {pid : Nat}
    {st : String} {s' : LedgerState} {r : String}
    (h : admin_update_project_status s role pid st = .ok (s', r)) :
    s'.listings = s.listings ∧ s'.holdings = s.holdings := by
  simp only [admin_update_project_status] at h
  split at h
  · cases h
  split at h
  · cases h
  split at h
  next hp => cases h
  next p hp =>
    simp only [Except.ok.injEq, Prod.mk.injEq] at h
    rw [← h.1]
    exact ⟨rfl, rfl⟩

theorem create_project_ok_frames {s : LedgerState} {uid : Nat} {role : String}
    {inp : CreateProjectInput} {s' : LedgerState} {pid : Nat}
    (h : issuer_create_project s uid role inp = .ok (s', pid)) :
    s'.listings = s.listings ∧ s'.holdings = s.holdings := by
  simp only [issuer_create_project] at h
  split at h
  · cases h
  split at h
  · cases h
  split at h
  · cases h
  simp only [Except.ok.injEq, Prod.mk.injEq] at h
  rw [← h.1]
  exact ⟨rfl, rfl⟩

-- A SOLD listing stays SOLD across every single operation.

theorem sold_listing_preserved_step (s : LedgerState) (op : Op) (lid : Nat)
    (l : MarketplaceListing) (hl : findListing s lid = some l)
    (hsold : l.status = "SOLD") :
    ∃ l', findListing (step s op) lid = some l' ∧ l'.status = "SOLD" := by
  cases op with
  | invest u r pid a h =>
    simp only [step]
    split
    next s1 o1 hres =>
      obtain ⟨-, p, hp, -, -, hs', -⟩ := invest_ok_inv hres
      subst hs'
      exact ⟨l, hl, hsold⟩
    next e hres => exact ⟨l, hl, hsold⟩
  | createListing u pid n q =>
    simp only [step]
    split
    next s1 lidN hres =>
      obtain ⟨-, -, h0, hh0, hcnt, hlid, hs'⟩ := createListing_ok_inv hres
      subst hs'
      have hl2 : List.find? (fun x : MarketplaceListing => x.id == lid) s.listings
          = some l := hl
      exact ⟨l, find?_append_some _ _ _ l hl2, hsold⟩
    next e hres => exact ⟨l, hl, hsold⟩
  | buyListing b lidB h =>
    simp only [step]
    split
    next s1 r hres =>
      obtain ⟨lb, sh, p, hlb, hactB, -, -, -, -, -, hs', -⟩ := buy_ok_inv hres
      subst hs'
      by_cases hsame : lid = lidB
      · subst hsame
        rw [hl] at hlb
        injection hlb with he
        rw [← he] at hactB
        rw [hsold] at hactB
        exact absurd hactB (by decide)
      · have hlbid : lb.id = lidB := findListing_some_id hlb
        refine ⟨l, ?_, hsold⟩
        show (updateFirst (fun x : MarketplaceListing => x.id == lb.id)
            (fun x => { x with status := "SOLD" }) s.listings).find?
            (fun x : MarketplaceListing => x.id == lid) = some l
        rw [find?_updateFirst_of_ne (fun x : MarketplaceListing => x.id == lb.id)
          (fun x : MarketplaceListing => x.id == lid)
          (fun x => { x with status := "SOLD" }) s.listings
          (fun x hx => by simp at hx ⊢; omega) (fun x hx => by simp at hx ⊢; omega)]
        exact hl
    next e hres => exact ⟨l, hl, hsold⟩
  | submitProof u r mid pf =>
    simp only [step]
    split
    next s1 res hres =>
      obtain ⟨-, m, proj, -, -, -, -, hbr⟩ := submit_ok_inv hres
      rcases hbr with ⟨-, hs', -⟩ | ⟨-, hs', -⟩ <;> subst hs'
      · exact ⟨l, hl, hsold⟩
      · exact ⟨l, hl, hsold⟩
    next e hres => exact ⟨l, hl, hsold⟩
  | createProject u r inp =>
    simp only [step]
    split
    next s1 pidN hres =>
      obtain ⟨hlst, -⟩ := create_project_ok_frames hres
      refine ⟨l, ?_, hsold⟩
      show List.find? (fun x : MarketplaceListing => x.id == lid) s1.listings = some l
      rw [hlst]
      exact hl
    next e hres => exact ⟨l, hl, hsold⟩
  | setProjectStatus r pid st =>
    simp only [step]
    split
    next s1 r1 hres =>
      obtain ⟨hlst, -⟩ := admin_status_ok_frames hres
      refine ⟨l, ?_, hsold⟩
      show List.find? (fun x : MarketplaceListing => x.id == lid) s1.listings = some l
      rw [hlst]
      exact hl
    next e hres => exact ⟨l, hl, hsold⟩

/-- A SOLD listing stays SOLD across every sequence of operations. -/
theorem sold_listing_preserved_run (s : LedgerState) (ops : List Op) (lid : Nat)
    (l : MarketplaceListing) (hl : findListing s lid = some l)
    (hsold : l.status = "SOLD") :
    ∃ l', findListing (run s ops) lid = some l' ∧ l'.status = "SOLD" := by
  induction ops generalizing s l with
  | nil => exact ⟨l, hl, hsold⟩
  | cons op ops ih =>
    obtain ⟨l1, hl1, hs1⟩ := sold_listing_preserved_step s op lid l hl hsold
    exact ih (step s op) l1 hl1 hs1

/-- C7: a listing can be bought at most once: a successful buy finds the listing
    ACTIVE and turns exactly its status to SOLD; a buy on a non-ACTIVE (e.g.
    SOLD) listing fails with the conflict error and changes nothing; and SOLD is
    terminal — no operation of the backend (there is no cancel operation) ever
    brings a SOLD listing back, across any sequence of requests. -/
theorem c7_listing_sold_at_most_once_and_terminal :
    (∀ (s : LedgerState) (buyer lid : Nat) (txh : String) (s' : LedgerState)
        (r : String) (l : MarketplaceListing),
      findListing s lid = some l → buy_listing s buyer lid txh = .ok (s', r) →
      l.status = "ACTIVE" ∧ findListing s' lid = some { l with status := "SOLD" }) ∧
    (∀ (s : LedgerState) (buyer lid : Nat) (txh : String) (l : MarketplaceListing),
      findListing s lid = some l → l.status ≠ "ACTIVE" →
      buy_listing s buyer lid txh = .error ⟨400, "Listing not available"⟩ ∧
      step s (Op.buyListing buyer lid txh) = s) ∧
    (∀ (s : LedgerState) (ops : List Op) (lid : Nat) (l : MarketplaceListing),
      findListing s lid = some l → l.status = "SOLD" →
      ∃ l', findListing (run s ops) lid = some l' ∧ l'.status = "SOLD") := by
  refine ⟨?_, ?_, ?_⟩
  · intro s buyer lid txh s' r l hl h
    obtain ⟨hact, -, -, h4, -, -, -, -, -, -, -, -, -, -⟩ := buy_effects hl h
    exact ⟨hact, h4⟩
  · intro s buyer lid txh l hl hne
    have hb : buy_listing s buyer lid txh = .error ⟨400, "Listing not available"⟩ := by
      simp [buy_listing, hl, hne]
    exact ⟨hb, by simp [step, hb]⟩
  · intro s ops lid l hl hsold
    exact sold_listing_preserved_run s ops lid l hl hsold

/-- Witness for C7: listing 7 of the demo ledger is SOLD; a repeated buy attempt
    fails with the conflict error and leaves the state unchanged, and the listing
    is still SOLD after a further arbitrary request sequence. -/
theorem c7_listing_sold_at_most_once_and_terminal_witness :
    (buy_listing demoState 4 7 "0xg" = .error ⟨400, "Listing not available"⟩ ∧
     step demoState (Op.buyListing 4 7 "0xg") = demoState) ∧
    (∃ l', findListing (run demoState [Op.buyListing 4 7 "0xg",
        Op.invest 3 "INVESTOR" 10 250 "0xh"]) 7 = some l' ∧ l'.status = "SOLD") :=
  ⟨c7_listing_sold_at_most_once_and_terminal.2.1 demoState 4 7 "0xg"
      ⟨7, 3, 10, 5, 90, "SOLD"⟩ (by rfl) (by decide),
   c7_listing_sold_at_most_once_and_terminal.2.2 demoState
      [Op.buyListing 4 7 "0xg", Op.invest 3 "INVESTOR" 10 250 "0xh"] 7
      ⟨7, 3, 10, 5, 90, "SOLD"⟩ (by rfl) (by rfl)⟩

-- Joint non-negativity of holdings and listings is preserved by every operation.

theorem nonneg_preserved_step (s : LedgerState) (op : Op)
    (hh : ∀ h0 ∈ s.holdings, 0 ≤ h0.token_count)
    (hl : ∀ l ∈ s.listings, 0 ≤ l.token_count) :
    (∀ h0 ∈ (step s op).holdings, 0 ≤ h0.token_count) ∧
    (∀ l ∈ (step s op).listings, 0 ≤ l.token_count) := by
  cases op with
  | invest u r pid a h =>
    simp only [step]
    split
    next s1 o1 hres =>
      obtain ⟨-, p, hp, -, htok, hs', -⟩ := invest_ok_inv hres
      subst hs'
      refine ⟨?_, hl⟩
      intro h0 hmem
      have hmem2 : h0 ∈ upsertBy
          (fun x : TokenHolding => x.user_id == u && x.project_id == p.id)
          ⟨u, p.id, 0, 0⟩
          (fun x => { x with
            token_count := x.token_count + Int.fdiv a p.token_price,
            avg_buy_price := ((x.token_count : ℚ) * x.avg_buy_price
                + ((Int.fdiv a p.token_price * p.token_price : Int) : ℚ))
              / ((x.token_count + Int.fdiv a p.token_price : Int) : ℚ) })
          s.holdings := hmem
      rcases mem_upsertBy _ _ _ _ _ hmem2 with hin | ⟨x, hfx, hx⟩ | hx
      · exact hh h0 hin
      · have hxmem : x ∈ s.holdings := List.mem_of_find?_eq_some hfx
        have hx0 := hh x hxmem
        subst hx
        show 0 ≤ x.token_count + Int.fdiv a p.token_price
        omega
      · subst hx
        show 0 ≤ (0 : Int) + Int.fdiv a p.token_price
        omega
    next e hres => exact ⟨hh, hl⟩
  | createListing u pid n q =>
    simp only [step]
    split
    next s1 lidN hres =>
      obtain ⟨hn, hq, h0, hh0, hcnt, hlid, hs'⟩ := createListing_ok_inv hres
      subst hs'
      refine ⟨hh, ?_⟩
      intro lx hmem
      rcases List.mem_append.mp hmem with hin | hnew
      · exact hl lx hin
      · rw [List.mem_singleton.mp hnew]
        show 0 ≤ n
        omega
    next e hres => exact ⟨hh, hl⟩
  | buyListing b lidB h =>
    simp only [step]
    split
    next s1 r hres =>
      obtain ⟨lb, sh, p, hlb, -, hns, -, -, hsh, hcnt, hs', -⟩ := buy_ok_inv hres
      subst hs'
      have hlbmem : lb ∈ s.listings := List.mem_of_find?_eq_some hlb
      have hlbn : 0 ≤ lb.token_count := hl lb hlbmem
      have hsh2 : List.find? (fun x : TokenHolding =>
          x.user_id == lb.seller_id && x.project_id == lb.project_id) s.holdings
          = some sh := hsh
      have hh1 : ∀ x ∈ updateFirst (fun x : TokenHolding =>
          x.user_id == lb.seller_id && x.project_id == lb.project_id)
          (fun x => { x with token_count := x.token_count - lb.token_count })
          s.holdings, 0 ≤ x.token_count := by
        intro x hx
        rcases mem_updateFirst _ _ _ _ hx with hin | ⟨y, hfy, hy⟩
        · exact hh x hin
        · rw [hsh2] at hfy
          injection hfy with hesh
          subst hesh
          subst hy
          show 0 ≤ sh.token_count - lb.token_count
          omega
      constructor
      · intro h0 hmem
        have hmem2 : h0 ∈ upsertBy
            (fun x : TokenHolding => x.user_id == b && x.project_id == lb.project_id)
            ⟨b, lb.project_id, 0, (lb.price_per_token : ℚ)⟩
            (fun x => { x with token_count := x.token_count + lb.token_count,
                               avg_buy_price := (lb.price_per_token : ℚ) })
            (updateFirst (fun x : TokenHolding =>
                x.user_id == lb.seller_id && x.project_id == lb.project_id)
              (fun x => { x with token_count := x.token_count - lb.token_count })
              s.holdings) := hmem
        rcases mem_upsertBy _ _ _ _ _ hmem2 with hin | ⟨x, hfx, hx⟩ | hx
        · exact hh1 h0 hin
        · have hxmem := List.mem_of_find?_eq_some hfx
          have hx0 := hh1 x hxmem
          subst hx
          show 0 ≤ x.token_count + lb.token_count
          omega
        · subst hx
          show 0 ≤ (0 : Int) + lb.token_count
          omega
      · intro lx hmem
        have hmem2 : lx ∈ updateFirst (fun x : MarketplaceListing => x.id == lb.id)
            (fun x => { x with status := "SOLD" }) s.listings := hmem
        rcases mem_updateFirst _ _ _ _ hmem2 with hin | ⟨y, hfy, hy⟩
        · exact hl lx hin
        · have hymem : y ∈ s.listings := List.mem_of_find?_eq_some hfy
          subst hy
          show 0 ≤ y.token_count
          exact hl y hymem
    next e hres => exact ⟨hh, hl⟩
  | submitProof u r mid pf =>
    simp only [step]
    split
    next s1 res hres =>
      obtain ⟨-, m, proj, -, -, -, -, hbr⟩ := submit_ok_inv hres
      rcases hbr with ⟨-, hs', -⟩ | ⟨-, hs', -⟩ <;> subst hs'
      · exact ⟨hh, hl⟩
      · exact ⟨hh, hl⟩
    next e hres => exact ⟨hh, hl⟩
  | createProject u r inp =>
    simp only [step]
    split
    next s1 pidN hres =>
      obtain ⟨hls, hhs⟩ := create_project_ok_frames hres
      refine ⟨?_, ?_⟩
      · intro h0 hmem
        rw [hhs] at hmem
        exact hh h0 hmem
      · intro lx hmem
        rw [hls] at hmem
        exact hl lx hmem
    next e hres => exact ⟨hh, hl⟩
  | setProjectStatus r pid st =>
    simp only [step]
    split
    next s1 r1 hres =>
      obtain ⟨hls, hhs⟩ := admin_status_ok_frames hres
      refine ⟨?_, ?_⟩
      · intro h0 hmem
        rw [hhs] at hmem
        exact hh h0 hmem
      · intro lx hmem
        rw [hls] at hmem
        exact hl lx hmem
    next e hres => exact ⟨hh, hl⟩

theorem nonneg_preserved_run (s : LedgerState) (ops : List Op)
    (hh : ∀ h0 ∈ s.holdings, 0 ≤ h0.token_count)
    (hl : ∀ l ∈ s.listings, 0 ≤ l.token_count) :
    (∀ h0 ∈ (run s ops).holdings, 0 ≤ h0.token_count) ∧
    (∀ l ∈ (run s ops).listings, 0 ≤ l.token_count) := by
  induction ops generalizing s with
  | nil => exact ⟨hh, hl⟩
  | cons op ops ih =>
    obtain ⟨hh1, hl1⟩ := nonneg_preserved_step s op hh hl
    exact ih (step s op) hh1 hl1

/-- A state whose holdings are all non-negative but which contains a marketplace
    listing with a NEGATIVE token_count (never produced by createListing, whose
    guard requires token_count > 0, but allowed by the claim's premises). -/
def c9BadState : LedgerState :=
  ⟨demoState.users,
   [demoProj10],
   [],
   [⟨10, 0, 0⟩],
   [⟨3, 10, 0, 0⟩, ⟨4, 10, 0, 0⟩],
   [],
   [⟨5, 3, 10, -1, 3, "ACTIVE"⟩]⟩

/-- Counterexample to C9 as stated: starting from a state in which every
    holding's token_count is ≥ 0 (but a listing carries token_count = -1),
    one buy drives buyer 4's holding to -1: the seller-balance guard
    `seller.token_count < listing.token_count` passes vacuously for a negative
    listing count, and the buyer is credited a negative number of tokens. -/
theorem c9_counterexample_negative_listing_breaks_invariant :
    (∀ h0 ∈ c9BadState.holdings, 0 ≤ h0.token_count) ∧
    holdingCount (step c9BadState (Op.buyListing 4 5 "0xk")) 4 10 = -1 := by
  constructor
  · decide
  · rfl

/-- C9 (amended): starting from any state in which every holding's token_count
    is ≥ 0 AND every listing's token_count is ≥ 0 (an invariant of listings:
    createListing only creates positive counts), every reachable state keeps all
    holdings non-negative — invest only adds a positive token count,
    createListing never modifies any holding, and buy decrements the seller only
    after checking the seller holds at least the listing's token_count. -/
theorem c9_amended_holdings_nonneg (s : LedgerState) (ops : List Op)
    (hh : ∀ h0 ∈ s.holdings, 0 ≤ h0.token_count)
    (hl : ∀ l ∈ s.listings, 0 ≤ l.token_count) :
    ∀ h0 ∈ (run s ops).holdings, 0 ≤ h0.token_count :=
  (nonneg_preserved_run s ops hh hl).1

/-- Witness for amended C9: from the demo ledger, after a buy of listing 5 and a
    fresh investment, every holding is still non-negative. -/
theorem c9_amended_holdings_nonneg_witness :
    (∀ h0 ∈ demoState.holdings, 0 ≤ h0.token_count) ∧
    (∀ l ∈ demoState.listings, 0 ≤ l.token_count) ∧
    (∀ h0 ∈ (run demoState [Op.buyListing 4 5 "0xw1",
        Op.invest 3 "INVESTOR" 10 250 "0xw2"]).holdings, 0 ≤ h0.token_count) :=
  ⟨by decide, by decide,
   c9_amended_holdings_nonneg demoState
     [Op.buyListing 4 5 "0xw1", Op.invest 3 "INVESTOR" 10 250 "0xw2"]
     (by decide) (by decide)⟩

/-- C10: createListing performs no check whatsoever on the referenced project:
    any authenticated seller holding at least n tokens recorded under project id
    pid gets an ACTIVE listing for positive n and q, even when that project does
    not exist or is not ACTIVE (e.g. PENDING or FROZEN).  Project existence and
    ACTIVE status are enforced only later: the active-listings view omits the
    listing, and a buy attempt fails with "Project not found" / "Project not
    active". -/
theorem c10_create_listing_ignores_project
    {s : LedgerState} {uid pid : Nat} {n q : Int} {h0 : TokenHolding}
    (hh : findHolding s uid pid = some h0) (hcnt : n ≤ h0.token_count)
    (hn : 0 < n) (hq : 0 < q) :
    list_tokens_for_sale s uid pid n q
      = .ok ({ s with listings := s.listings ++ [⟨nextId (s.listings.map MarketplaceListing.id), uid, pid, n, q, "ACTIVE"⟩] }, nextId (s.listings.map MarketplaceListing.id)) ∧
    (findProject s pid = none →
      (∀ buyer txh, buyer ≠ uid →
        buy_listing { s with listings := s.listings ++ [⟨nextId (s.listings.map MarketplaceListing.id), uid, pid, n, q, "ACTIVE"⟩] } buyer (nextId (s.listings.map MarketplaceListing.id)) txh
          = .error ⟨404, "Project not found"⟩) ∧
      (∀ v ∈ marketplace_listings_view { s with listings := s.listings ++ [⟨nextId (s.listings.map MarketplaceListing.id), uid, pid, n, q, "ACTIVE"⟩] }, v.id ≠ nextId (s.listings.map MarketplaceListing.id))) ∧
    (∀ p, findProject s pid = some p → p.status ≠ "ACTIVE" →
      (∀ buyer txh, buyer ≠ uid →
        buy_listing { s with listings := s.listings ++ [⟨nextId (s.listings.map MarketplaceListing.id), uid, pid, n, q, "ACTIVE"⟩] } buyer (nextId (s.listings.map MarketplaceListing.id)) txh
          = .error ⟨400, "Project not active"⟩) ∧
      (∀ v ∈ marketplace_listings_view { s with listings := s.listings ++ [⟨nextId (s.listings.map MarketplaceListing.id), uid, pid, n, q, "ACTIVE"⟩] }, v.id ≠ nextId (s.listings.map MarketplaceListing.id))) := by
  have hno : ¬ (n ≤ 0 ∨ q ≤ 0) := by omega
  have hc : ¬ h0.token_count < n := by omega
  have hfresh : List.find? (fun x : MarketplaceListing =>
      x.id == nextId (s.listings.map MarketplaceListing.id)) s.listings = none := by
    rw [List.find?_eq_none]
    intro x hx
    have := nextId_gt (s.listings.map MarketplaceListing.id) x.id
      (List.mem_map_of_mem MarketplaceListing.id hx)
    simp
    omega
  have hfl : findListing { s with listings := s.listings ++ [⟨nextId (s.listings.map MarketplaceListing.id), uid, pid, n, q, "ACTIVE"⟩] } (nextId (s.listings.map MarketplaceListing.id))
      = some ⟨nextId (s.listings.map MarketplaceListing.id), uid, pid, n, q, "ACTIVE"⟩ := by
    show List.find? _ (s.listings ++ _) = _
    rw [find?_append_none _ _ _ hfresh]
    simp [List.find?_cons]
  have hview : ∀ (hproj : findProject s pid = none ∨
      ∃ p, findProject s pid = some p ∧ p.status ≠ "ACTIVE"),
      ∀ v ∈ marketplace_listings_view { s with listings := s.listings ++ [⟨nextId (s.listings.map MarketplaceListing.id), uid, pid, n, q, "ACTIVE"⟩] }, v.id ≠ nextId (s.listings.map MarketplaceListing.id) := by
    intro hproj v hv
    obtain ⟨lx, hlx, hfx⟩ := List.mem_filterMap.mp hv
    have hlx2 : lx ∈ s.listings ++ [(⟨nextId (s.listings.map MarketplaceListing.id), uid, pid, n, q, "ACTIVE"⟩ :
        MarketplaceListing)] := (List.mem_filter.mp hlx).1
    rcases List.mem_append.mp hlx2 with hin | hnew
    · have hid := nextId_gt (s.listings.map MarketplaceListing.id) lx.id
        (List.mem_map_of_mem MarketplaceListing.id hin)
      have hvid : v.id = lx.id := by
        cases hP : findProject { s with listings := s.listings ++ [⟨nextId (s.listings.map MarketplaceListing.id), uid, pid, n, q, "ACTIVE"⟩] } lx.project_id with
        | none => simp only [hP] at hfx; cases hfx
        | some pp =>
          cases hU : findUser { s with listings := s.listings ++ [⟨nextId (s.listings.map MarketplaceListing.id), uid, pid, n, q, "ACTIVE"⟩] } lx.seller_id with
          | none => simp only [hP, hU] at hfx; cases hfx
          | some uu =>
            simp only [hP, hU] at hfx
            by_cases hst : pp.status ≠ "ACTIVE"
            · rw [if_pos hst] at hfx; cases hfx
            · rw [if_neg hst] at hfx
              injection hfx with he
              rw [← he]
      omega
    · rw [List.mem_singleton.mp hnew] at hfx
      rcases hproj with hnone | ⟨p, hsome, hst⟩
      · simp only [show findProject { s with listings := s.listings ++ [⟨nextId (s.listings.map MarketplaceListing.id), uid, pid, n, q, "ACTIVE"⟩] }
            ((⟨nextId (s.listings.map MarketplaceListing.id), uid, pid, n, q, "ACTIVE"⟩ :
              MarketplaceListing)).project_id = none from hnone] at hfx
        cases hfx
      · simp only [show findProject { s with listings := s.listings ++ [⟨nextId (s.listings.map MarketplaceListing.id), uid, pid, n, q, "ACTIVE"⟩] }
            ((⟨nextId (s.listings.map MarketplaceListing.id), uid, pid, n, q, "ACTIVE"⟩ :
              MarketplaceListing)).project_id = some p from hsome] at hfx
        cases hU : findUser { s with listings := s.listings ++ [⟨nextId (s.listings.map MarketplaceListing.id), uid, pid, n, q, "ACTIVE"⟩] }
            ((⟨nextId (s.listings.map MarketplaceListing.id), uid, pid, n, q, "ACTIVE"⟩ :
              MarketplaceListing)).seller_id with
        | none => simp only [hU] at hfx; cases hfx
        | some uu =>
          simp only [hU] at hfx
          rw [if_pos hst] at hfx
          cases hfx
  refine ⟨?_, ?_, ?_⟩
  · simp [list_tokens_for_sale, hh, hno, hc]
  · intro hnone
    refine ⟨?_, hview (Or.inl hnone)⟩
    intro buyer txh hbu
    have hPn : findProject { s with listings := s.listings ++ [⟨nextId (s.listings.map MarketplaceListing.id), uid, pid, n, q, "ACTIVE"⟩] }
        ((⟨nextId (s.listings.map MarketplaceListing.id), uid, pid, n, q, "ACTIVE"⟩ :
          MarketplaceListing)).project_id = none := hnone
    simp [buy_listing, hfl, hbu, hPn]
  · intro p hsome hst
    refine ⟨?_, hview (Or.inr ⟨p, hsome, hst⟩)⟩
    intro buyer txh hbu
    have hPs : findProject { s with listings := s.listings ++ [⟨nextId (s.listings.map MarketplaceListing.id), uid, pid, n, q, "ACTIVE"⟩] }
        ((⟨nextId (s.listings.map MarketplaceListing.id), uid, pid, n, q, "ACTIVE"⟩ :
          MarketplaceListing)).project_id = some p := hsome
    simp [buy_listing, hfl, hbu, hPs, hst]

/-- A ledger with holdings recorded under project 77 (which does not exist in
    the catalog) and under project 11 (which is PENDING), and no listings. -/
def c10State : LedgerState :=
  ⟨demoState.users, [demoProj11], [], [],
   [⟨3, 77, 40, 100⟩, ⟨3, 11, 40, 100⟩], [], []⟩

/-- Witness for C10: seller 3 lists 10 tokens at price 5 under the nonexistent
    project 77 and under the PENDING project 11; both listings are created, both
    are invisible in the active-listings view, and buying either fails
    ("Project not found" / "Project not active"). -/
theorem c10_create_listing_ignores_project_witness :
    (list_tokens_for_sale c10State 3 77 10 5
      = .ok ({ c10State with listings := c10State.listings ++
          [⟨nextId (c10State.listings.map MarketplaceListing.id), 3, 77, 10, 5, "ACTIVE"⟩] },
        nextId (c10State.listings.map MarketplaceListing.id)) ∧
     (∀ buyer txh, buyer ≠ 3 →
        buy_listing { c10State with listings := c10State.listings ++
            [⟨nextId (c10State.listings.map MarketplaceListing.id), 3, 77, 10, 5, "ACTIVE"⟩] }
          buyer (nextId (c10State.listings.map MarketplaceListing.id)) txh
          = .error ⟨404, "Project not found"⟩) ∧
     (∀ v ∈ marketplace_listings_view { c10State with listings := c10State.listings ++
          [⟨nextId (c10State.listings.map MarketplaceListing.id), 3, 77, 10, 5, "ACTIVE"⟩] },
        v.id ≠ nextId (c10State.listings.map MarketplaceListing.id))) ∧
    ((∀ buyer txh, buyer ≠ 3 →
        buy_listing { c10State with listings := c10State.listings ++
            [⟨nextId (c10State.listings.map MarketplaceListing.id), 3, 11, 10, 5, "ACTIVE"⟩] }
          buyer (nextId (c10State.listings.map MarketplaceListing.id)) txh
          = .error ⟨400, "Project not active"⟩) ∧
     (∀ v ∈ marketplace_listings_view { c10State with listings := c10State.listings ++
          [⟨nextId (c10State.listings.map MarketplaceListing.id), 3, 11, 10, 5, "ACTIVE"⟩] },
        v.id ≠ nextId (c10State.listings.map MarketplaceListing.id))) := by
  have H77 := @c10_create_listing_ignores_project c10State 3 77 10 5
    ⟨3, 77, 40, 100⟩ (by rfl) (by decide) (by decide) (by decide)
  have H11 := @c10_create_listing_ignores_project c10State 3 11 10 5
    ⟨3, 11, 40, 100⟩ (by rfl) (by decide) (by decide) (by decide)
  exact ⟨⟨H77.1, (H77.2.1 (by rfl)).1, (H77.2.1 (by rfl)).2⟩,
         ⟨(H11.2.2 demoProj11 (by rfl) (by decide)).1,
          (H11.2.2 demoProj11 (by rfl) (by decide)).2⟩⟩

end InfraBondX
